import Mathlib

/-!
Verification development for the PokerNow hand-history analyzer.

The definitions below are a shallow embedding of `analyze.py`:
`split_into_hands`, `extract_player_name`, and the per-hand betting
state machine plus cross-hand aggregator inside `analyze_all_stats`.
Lines are Lean `String`s; decimal currency amounts are modelled as `ℚ`
(the Python code uses floats on exact decimal literals); the Python
`defaultdict`s keyed by player name become total functions
`String → ℚ / ℕ / Bool` together with explicit key-insertion lists that
mirror dictionary key creation on write.
-/

namespace PokerNow

/-- Python `pat in s` substring test on character lists. -/
def listHasRun (pat : List Char) : List Char → Bool
  | [] => pat.isEmpty
  | c :: t => pat.isPrefixOf (c :: t) || listHasRun pat t

/-- Python `pat in s` substring containment on strings. -/
def containsSub (s pat : String) : Bool := listHasRun pat.data s.data

def is_flop_marker (e : String) : Bool :=
  containsSub e "*** FLOP ***" || containsSub e "Flop:"

def is_turn_marker (e : String) : Bool :=
  containsSub e "*** TURN ***" || containsSub e "Turn:"

def is_river_marker (e : String) : Bool :=
  containsSub e "*** RIVER ***" || containsSub e "River:"

def is_street_marker (e : String) : Bool :=
  is_flop_marker e || is_turn_marker e || is_river_marker e

def is_hand_start (e : String) : Bool := containsSub e "-- starting hand #"

def has_shows (e : String) : Bool := containsSub e "shows a "

def starts_with_uncalled (e : String) : Bool := ("Uncalled bet".data).isPrefixOf e.data

def is_blind_line (e : String) : Bool :=
  containsSub e "posts a small blind" || containsSub e "posts a big blind"

def has_folds (e : String) : Bool := containsSub e " folds"

def has_calls (e : String) : Bool := containsSub e " calls "

def has_checks (e : String) : Bool := containsSub e " checks"

def has_bets (e : String) : Bool := containsSub e " bets "

def has_raises_to (e : String) : Bool := containsSub e " raises to "

def has_collected_pot (e : String) : Bool :=
  containsSub e " collected " && containsSub e "from pot"

/-- Numeric value of a run of decimal digit characters. -/
def digitsToNat (l : List Char) : ℕ :=
  l.foldl (fun a c => 10 * a + (c.toNat - 48)) 0

/-- Match the regex `[0-9]+\.[0-9]+` anchored at the head of `l`
(greedy digit runs, as the backtracking engine resolves it); returns the
value and the remaining characters. -/
def decimalAt (l : List Char) : Option (ℚ × List Char) :=
  let d1 := l.takeWhile Char.isDigit
  let r1 := l.dropWhile Char.isDigit
  if d1.isEmpty then none
  else
    match r1 with
    | '.' :: r2 =>
        let d2 := r2.takeWhile Char.isDigit
        if d2.isEmpty then none
        else some ((digitsToNat d1 : ℚ) + (digitsToNat d2 : ℚ) / (10 : ℚ) ^ d2.length,
                   r2.dropWhile Char.isDigit)
    | _ => none

/-- `re.search` for `([0-9]+\.[0-9]+)` : leftmost position where a decimal matches. -/
def searchDecimal : List Char → Option ℚ
  | [] => none
  | l@(_ :: t) =>
      match decimalAt l with
      | some (q, _) => some q
      | none => searchDecimal t

/-- `re.search` for `lit([0-9]+\.[0-9]+)` : leftmost occurrence of the literal
`lit` that is immediately followed by a decimal amount. -/
def searchLitDecimal (lit : List Char) : List Char → Option ℚ
  | [] => none
  | l@(_ :: t) =>
      match (if lit.isPrefixOf l then decimalAt (l.drop lit.length) else none) with
      | some (q, _) => some q
      | none => searchLitDecimal lit t

/-- `re.search` for `lit1([0-9]+\.[0-9]+)lit2`. -/
def searchLitDecimalLit (lit1 lit2 : List Char) : List Char → Option ℚ
  | [] => none
  | l@(_ :: t) =>
      match (if lit1.isPrefixOf l then decimalAt (l.drop lit1.length) else none) with
      | some (q, rest) =>
          if lit2.isPrefixOf rest then some q else searchLitDecimalLit lit1 lit2 t
      | none => searchLitDecimalLit lit1 lit2 t

def parse_amount_after (lit : String) (e : String) : Option ℚ :=
  searchLitDecimal lit.data e.data

/-- `re.search` for `Uncalled bet of ([0-9]+\.[0-9]+) returned to "([^\x22]+)"`.
The second capture group is the whole quoted token (the ` @ id` suffix is not
stripped here, exactly as in the source regex). -/
def searchUncalled : List Char → Option (ℚ × String)
  | [] => none
  | l@(_ :: t) =>
      match (if ("Uncalled bet of ".data).isPrefixOf l
             then decimalAt (l.drop ("Uncalled bet of ".data).length) else none) with
      | some (q, rest) =>
          if (" returned to \"".data).isPrefixOf rest then
            let body := rest.drop (" returned to \"".data).length
            let inner := body.takeWhile (fun c => c ≠ '"')
            let after := body.dropWhile (fun c => c ≠ '"')
            if inner.isEmpty then searchUncalled t
            else
              match after with
              | '"' :: _ => some (q, ⟨inner⟩)
              | _ => searchUncalled t
          else searchUncalled t
      | none => searchUncalled t

/-- Lazy group of `"([^\x22]+?) @ ([^\x22]+)"` : shortest nonempty prefix `acc`
of the quote-free inner text that is immediately followed by `" @ "` with a
nonempty remainder. -/
def nameSplitAt (acc : List Char) : List Char → Option (List Char)
  | [] => none
  | c :: rest =>
      if (" @ ".data).isPrefixOf (c :: rest) && !acc.isEmpty && !(rest.drop 2).isEmpty then
        some acc
      else nameSplitAt (acc ++ [c]) rest

/-- Try to match `"([^\x22]+?) @ [^\x22]+"` at the head of `l`. -/
def matchNameAt : List Char → Option (List Char)
  | '"' :: rest =>
      let inner := rest.takeWhile (fun c => c ≠ '"')
      let after := rest.dropWhile (fun c => c ≠ '"')
      (match after with
       | '"' :: _ => nameSplitAt [] inner
       | _ => none)
  | _ => none

def extractNameList : List Char → Option (List Char)
  | [] => none
  | l@(_ :: t) =>
      match matchNameAt l with
      | some p => some p
      | none => extractNameList t

/-- `extract_player_name` from the source: the display name inside a quoted
`"name @ id"` token, with the id suffix discarded. -/
def extract_player_name (e : String) : Option String :=
  (extractNameList e.data).map (fun l => ⟨l⟩)

/-- `split_into_hands` inner loop: flush `cur` when a hand-start marker is
seen, then append the entry to the current hand. -/
def splitLoop (acc : List (List String)) (cur : List String) :
    List String → List (List String)
  | [] => if cur.isEmpty then acc else acc ++ [cur]
  | e :: rest =>
      if is_hand_start e then
        splitLoop (if cur.isEmpty then acc else acc ++ [cur]) [e] rest
      else splitLoop acc (cur ++ [e]) rest

/-- `split_into_hands` from the source. -/
def split_into_hands (l : List String) : List (List String) :=
  splitLoop [] [] l

/-- Betting street, `street` in the source (a string there). -/
inductive Street
  | preflop
  | flop
  | turn
  | river
deriving DecidableEq, Repr

/-- Pointwise update of a rational-valued per-player map. -/
def updQ (f : String → ℚ) (k : String) (v : ℚ) : String → ℚ :=
  fun n => if n = k then v else f n

/-- Pointwise update of a boolean-valued per-player map. -/
def updB (f : String → Bool) (k : String) (v : Bool) : String → Bool :=
  fun n => if n = k then v else f n

/-- Pointwise update of a natural-valued per-player map. -/
def updN (f : String → ℕ) (k : String) (v : ℕ) : String → ℕ :=
  fun n => if n = k then v else f n

/-- Dictionary key creation on first write (Python dict keys keep insertion
order and are never duplicated). -/
def addKey (l : List String) (k : String) : List String :=
  if k ∈ l then l else l ++ [k]

/-- Per-hand state of the betting state machine: all the per-hand trackers
declared at the top of the hand loop in `analyze_all_stats`. -/
structure HandState where
  totalContrib : String → ℚ
  invested : String → ℚ
  investedKeys : List String
  collected : String → ℚ
  collectedKeys : List String
  active : String → Bool
  sawPreflop : String → Bool
  sawPreflopKeys : List String
  vpipThis : String → Bool
  pfrThis : String → Bool
  openRaiseThis : String → Bool
  threebetThis : String → Bool
  fourbetThis : String → Bool
  threebetOppThis : String → Bool
  fourbetOppThis : String → Bool
  foldTo3betThis : String → Bool
  foldTo4betThis : String → Bool
  sawFlopThis : String → Bool
  sawTurnThis : String → Bool
  sawRiverThis : String → Bool
  flopFoldToCbetThis : String → Bool
  turnFoldToCbetThis : String → Bool
  riverFoldToCbetThis : String → Bool
  aggrPostflop : String → ℕ
  callsPostflop : String → ℕ
  foldsPostflop : String → ℕ
  street : Street
  showdown : Bool
  preflopRaisesSeq : List String
  openRaiser : Option String
  threeBettor : Option String
  fourBettor : Option String
  preflopAgg : Option String
  flopAgg : Option String
  turnAgg : Option String
  flopCbetDone : Bool
  flopCbetBy : Option String
  turnCbetDone : Bool
  turnCbetBy : Option String
  riverCbetDone : Bool
  riverCbetBy : Option String
  checkedFlop : String → Bool
  checkedTurn : String → Bool
  checkedRiver : String → Bool
  facedFlop : String → Bool
  facedTurn : String → Bool
  facedRiver : String → Bool
  flopBetSeen : Bool
  turnBetSeen : Bool
  riverBetSeen : Bool
  hasCallerAfterOpen : Bool

def init_hand_state : HandState where
  totalContrib := fun _ => 0
  invested := fun _ => 0
  investedKeys := []
  collected := fun _ => 0
  collectedKeys := []
  active := fun _ => false
  sawPreflop := fun _ => false
  sawPreflopKeys := []
  vpipThis := fun _ => false
  pfrThis := fun _ => false
  openRaiseThis := fun _ => false
  threebetThis := fun _ => false
  fourbetThis := fun _ => false
  threebetOppThis := fun _ => false
  fourbetOppThis := fun _ => false
  foldTo3betThis := fun _ => false
  foldTo4betThis := fun _ => false
  sawFlopThis := fun _ => false
  sawTurnThis := fun _ => false
  sawRiverThis := fun _ => false
  flopFoldToCbetThis := fun _ => false
  turnFoldToCbetThis := fun _ => false
  riverFoldToCbetThis := fun _ => false
  aggrPostflop := fun _ => 0
  callsPostflop := fun _ => 0
  foldsPostflop := fun _ => 0
  street := .preflop
  showdown := false
  preflopRaisesSeq := []
  openRaiser := none
  threeBettor := none
  fourBettor := none
  preflopAgg := none
  flopAgg := none
  turnAgg := none
  flopCbetDone := false
  flopCbetBy := none
  turnCbetDone := false
  turnCbetBy := none
  riverCbetDone := false
  riverCbetBy := none
  checkedFlop := fun _ => false
  checkedTurn := fun _ => false
  checkedRiver := fun _ => false
  facedFlop := fun _ => false
  facedTurn := fun _ => false
  facedRiver := fun _ => false
  flopBetSeen := false
  turnBetSeen := false
  riverBetSeen := false
  hasCallerAfterOpen := false

/-- Cross-hand aggregator: all the global counters of `analyze_all_stats`. -/
structure Agg where
  handsPlayed : String → ℕ
  handsPlayedKeys : List String
  vpipHands : String → ℕ
  pfrHands : String → ℕ
  openRaiseHands : String → ℕ
  threebetHands : String → ℕ
  fourbetHands : String → ℕ
  threebetOpp : String → ℕ
  fourbetOpp : String → ℕ
  foldTo3betHands : String → ℕ
  foldTo4betHands : String → ℕ
  sawFlopHands : String → ℕ
  sawTurnHands : String → ℕ
  sawRiverHands : String → ℕ
  wtsdHands : String → ℕ
  wsdHands : String → ℕ
  wwsfHands : String → ℕ
  preflopAggFlopOpp : String → ℕ
  flopCbetHands : String → ℕ
  flopCbetFacedOpp : String → ℕ
  flopFoldToCbetHands : String → ℕ
  turnCbetOpp : String → ℕ
  turnCbetHands : String → ℕ
  turnCbetFacedOpp : String → ℕ
  turnFoldToCbetHands : String → ℕ
  riverCbetOpp : String → ℕ
  riverCbetHands : String → ℕ
  riverCbetFacedOpp : String → ℕ
  riverFoldToCbetHands : String → ℕ
  afAggr : String → ℕ
  afCalls : String → ℕ
  afFolds : String → ℕ
  crFlop : String → ℕ
  crTurn : String → ℕ
  crRiver : String → ℕ
  donkFlop : String → ℕ
  donkTurn : String → ℕ
  donkRiver : String → ℕ
  limpHands : String → ℕ
  callOpenHands : String → ℕ
  squeezeHands : String → ℕ
  netProfit : String → ℚ
  sdProfit : String → ℚ
  nonsdProfit : String → ℚ

def init_agg : Agg where
  handsPlayed := fun _ => 0
  handsPlayedKeys := []
  vpipHands := fun _ => 0
  pfrHands := fun _ => 0
  openRaiseHands := fun _ => 0
  threebetHands := fun _ => 0
  fourbetHands := fun _ => 0
  threebetOpp := fun _ => 0
  fourbetOpp := fun _ => 0
  foldTo3betHands := fun _ => 0
  foldTo4betHands := fun _ => 0
  sawFlopHands := fun _ => 0
  sawTurnHands := fun _ => 0
  sawRiverHands := fun _ => 0
  wtsdHands := fun _ => 0
  wsdHands := fun _ => 0
  wwsfHands := fun _ => 0
  preflopAggFlopOpp := fun _ => 0
  flopCbetHands := fun _ => 0
  flopCbetFacedOpp := fun _ => 0
  flopFoldToCbetHands := fun _ => 0
  turnCbetOpp := fun _ => 0
  turnCbetHands := fun _ => 0
  turnCbetFacedOpp := fun _ => 0
  turnFoldToCbetHands := fun _ => 0
  riverCbetOpp := fun _ => 0
  riverCbetHands := fun _ => 0
  riverCbetFacedOpp := fun _ => 0
  riverFoldToCbetHands := fun _ => 0
  afAggr := fun _ => 0
  afCalls := fun _ => 0
  afFolds := fun _ => 0
  crFlop := fun _ => 0
  crTurn := fun _ => 0
  crRiver := fun _ => 0
  donkFlop := fun _ => 0
  donkTurn := fun _ => 0
  donkRiver := fun _ => 0
  limpHands := fun _ => 0
  callOpenHands := fun _ => 0
  squeezeHands := fun _ => 0
  netProfit := fun _ => 0
  sdProfit := fun _ => 0
  nonsdProfit := fun _ => 0

/-- Street-transition handler for `*** FLOP ***` lines: snapshot the last
preflop raiser and mark all active players as having seen the flop. -/
def step_flop_marker (s : HandState) : HandState :=
  { s with
    street := .flop
    preflopAgg :=
      (match s.preflopRaisesSeq.getLast? with
       | some x => some x
       | none => s.preflopAgg)
    sawFlopThis := fun n => s.sawFlopThis n || s.active n }

def step_turn_marker (s : HandState) : HandState :=
  { s with
    street := .turn
    sawTurnThis := fun n => s.sawTurnThis n || s.active n }

def step_river_marker (s : HandState) : HandState :=
  { s with
    street := .river
    sawRiverThis := fun n => s.sawRiverThis n || s.active n }

/-- Preflop presence block (lines 261-274 of the source): record that the
player was dealt in, add to the active set, and record 3-bet / 4-bet
opportunity flags from the role slots as they stand when the player acts. -/
def presence_update (s : HandState) (name : String) : HandState :=
  { s with
    sawPreflop := updB s.sawPreflop name true
    sawPreflopKeys := addKey s.sawPreflopKeys name
    active := updB s.active name true
    threebetOppThis :=
      if s.openRaiser.isSome && s.threeBettor.isNone && (s.openRaiser != some name) then
        updB s.threebetOppThis name true
      else s.threebetOppThis
    fourbetOppThis :=
      if s.openRaiser.isSome && s.threeBettor.isSome && s.fourBettor.isNone
          && (s.openRaiser == some name) then
        updB s.fourbetOppThis name true
      else s.fourbetOppThis }

/-- Blind-posting handler: first decimal amount anywhere in the line is the
posted amount; on parse failure nothing is updated. -/
def step_blind (g : Agg) (s : HandState) (name : String) (e : String) : Agg × HandState :=
  match searchDecimal e.data with
  | some amt =>
      (g, { s with
            invested := updQ s.invested name (s.invested name + amt)
            investedKeys := addKey s.investedKeys name
            totalContrib := updQ s.totalContrib name (s.totalContrib name + amt) })
  | none => (g, s)

/-- Fold handler: preflop fold-to-3bet / fold-to-4bet flags, postflop fold
counters and fold-to-cbet flags, then removal from the active set. -/
def step_fold (g : Agg) (s : HandState) (name : String) : Agg × HandState :=
  if s.street = .preflop then
    (g, { s with
          foldTo3betThis :=
            if s.threebetOppThis name && !(s.threebetThis name) then
              updB s.foldTo3betThis name true
            else s.foldTo3betThis
          foldTo4betThis :=
            if s.fourbetOppThis name && !(s.fourbetThis name) then
              updB s.foldTo4betThis name true
            else s.foldTo4betThis
          active := updB s.active name false })
  else
    (g, { s with
          foldsPostflop := updN s.foldsPostflop name (s.foldsPostflop name + 1)
          flopFoldToCbetThis :=
            if s.street = .flop ∧ s.flopCbetDone then
              updB s.flopFoldToCbetThis name true
            else s.flopFoldToCbetThis
          turnFoldToCbetThis :=
            if s.street = .turn ∧ s.turnCbetDone then
              updB s.turnFoldToCbetThis name true
            else s.turnFoldToCbetThis
          riverFoldToCbetThis :=
            if s.street = .river ∧ s.riverCbetDone then
              updB s.riverFoldToCbetThis name true
            else s.riverFoldToCbetThis
          active := updB s.active name false })

/-- Mark a player as facing a bet on the given postflop street. -/
def set_faced (s : HandState) (st : Street) (name : String) : HandState :=
  match st with
  | .flop => { s with facedFlop := updB s.facedFlop name true }
  | .turn => { s with facedTurn := updB s.facedTurn name true }
  | .river => { s with facedRiver := updB s.facedRiver name true }
  | .preflop => s

/-- Call handler: on a parsable amount, money updates plus preflop VPIP /
limp / call-open bookkeeping or postflop call counting; on a malformed
amount the whole block is skipped. -/
def step_call (g : Agg) (s : HandState) (name : String) (e : String) : Agg × HandState :=
  match parse_amount_after " calls " e with
  | none => (g, s)
  | some amt =>
      let s1 := { s with
                  invested := updQ s.invested name (s.invested name + amt)
                  investedKeys := addKey s.investedKeys name
                  totalContrib := updQ s.totalContrib name (s.totalContrib name + amt) }
      if s1.street = .preflop then
        let limped := s1.openRaiser.isNone
        let callOpen := s1.openRaiser.isSome && s1.threeBettor.isNone
                          && (s1.openRaiser != some name)
        ({ g with
           limpHands := if limped then updN g.limpHands name (g.limpHands name + 1)
                        else g.limpHands
           callOpenHands := if callOpen then
                              updN g.callOpenHands name (g.callOpenHands name + 1)
                            else g.callOpenHands },
         { s1 with
           vpipThis := updB s1.vpipThis name true
           hasCallerAfterOpen := s1.hasCallerAfterOpen || callOpen })
      else
        (g, set_faced
              { s1 with
                callsPostflop := updN s1.callsPostflop name (s1.callsPostflop name + 1) }
              s1.street name)

/-- Check handler: postflop only, marks checked-before-facing-a-bet. -/
def step_check (g : Agg) (s : HandState) (name : String) : Agg × HandState :=
  match s.street with
  | .flop => (g, { s with checkedFlop := updB s.checkedFlop name true })
  | .turn => (g, { s with checkedTurn := updB s.checkedTurn name true })
  | .river => (g, { s with checkedRiver := updB s.checkedRiver name true })
  | .preflop => (g, s)

/-- Preflop role assignment shared by the bet and raise branches: VPIP and
PFR flags, the opener / 3-bettor / 4-bettor-by-opener chain with squeeze
detection, and the preflop raise sequence. -/
def preflop_roles (g : Agg) (s : HandState) (name : String) : Agg × HandState :=
  let s1 := { s with
              vpipThis := updB s.vpipThis name true
              pfrThis := updB s.pfrThis name true }
  if s1.openRaiser.isNone then
    (g, { s1 with
          openRaiser := some name
          openRaiseThis := updB s1.openRaiseThis name true
          preflopRaisesSeq := s1.preflopRaisesSeq ++ [name] })
  else if s1.threeBettor.isNone then
    let sq := s1.hasCallerAfterOpen && s1.openRaiser.isSome && (s1.openRaiser != some name)
    ((if sq then { g with squeezeHands := updN g.squeezeHands name (g.squeezeHands name + 1) }
      else g),
     { s1 with
       threeBettor := some name
       threebetThis := updB s1.threebetThis name true
       preflopRaisesSeq := s1.preflopRaisesSeq ++ [name] })
  else if s1.fourBettor.isNone && (s1.openRaiser == some name) then
    (g, { s1 with
          fourBettor := some name
          fourbetThis := updB s1.fourbetThis name true
          preflopRaisesSeq := s1.preflopRaisesSeq ++ [name] })
  else
    (g, { s1 with preflopRaisesSeq := s1.preflopRaisesSeq ++ [name] })

/-- Mark everyone else still active as facing a bet on the given street. -/
def mark_others_faced (s : HandState) (st : Street) (actor : String) : HandState :=
  match st with
  | .flop => { s with facedFlop := fun p => s.facedFlop p || (s.active p && (p != actor)) }
  | .turn => { s with facedTurn := fun p => s.facedTurn p || (s.active p && (p != actor)) }
  | .river => { s with facedRiver := fun p => s.facedRiver p || (s.active p && (p != actor)) }
  | .preflop => s

/-- `handle_postflop_aggr` from the source: count the aggressive action,
mark the other active players as facing a bet, and classify the first
bet or raise of the street as a continuation bet or donk bet. -/
def handle_postflop_aggr (g : Agg) (s : HandState) (st : Street) (actor : String) :
    Agg × HandState :=
  let s1 := mark_others_faced
              { s with aggrPostflop := updN s.aggrPostflop actor (s.aggrPostflop actor + 1) }
              st actor
  match st with
  | .flop =>
      let firstFlag := !s1.flopBetSeen
      let s2 := { s1 with flopBetSeen := true }
      (match s2.preflopAgg with
       | some pa =>
           if firstFlag then
             if actor = pa then
               if !s2.flopCbetDone then
                 (g, { s2 with flopCbetDone := true, flopCbetBy := some actor })
               else (g, s2)
             else
               ({ g with donkFlop := updN g.donkFlop actor (g.donkFlop actor + 1) }, s2)
           else (g, s2)
       | none => (g, s2))
  | .turn =>
      let firstFlag := !s1.turnBetSeen
      let s2 := { s1 with turnBetSeen := true }
      (match s2.flopAgg with
       | some pa =>
           if firstFlag then
             if actor = pa then
               if !s2.turnCbetDone then
                 (g, { s2 with turnCbetDone := true, turnCbetBy := some actor })
               else (g, s2)
             else
               ({ g with donkTurn := updN g.donkTurn actor (g.donkTurn actor + 1) }, s2)
           else (g, s2)
       | none => (g, s2))
  | .river =>
      let firstFlag := !s1.riverBetSeen
      let s2 := { s1 with riverBetSeen := true }
      (match s2.turnAgg with
       | some pa =>
           if firstFlag then
             if actor = pa then
               if !s2.riverCbetDone then
                 (g, { s2 with riverCbetDone := true, riverCbetBy := some actor })
               else (g, s2)
             else
               ({ g with donkRiver := updN g.donkRiver actor (g.donkRiver actor + 1) }, s2)
           else (g, s2)
       | none => (g, s2))
  | .preflop => (g, s1)

/-- After a postflop bet or raise the actor becomes the street aggressor
(flop and turn only, exactly as in the source). -/
def set_street_agg (s : HandState) (st : Street) (name : String) : HandState :=
  match st with
  | .flop => { s with flopAgg := some name }
  | .turn => { s with turnAgg := some name }
  | _ => s

/-- Bet handler. -/
def step_bet (g : Agg) (s : HandState) (name : String) (e : String) : Agg × HandState :=
  match parse_amount_after " bets " e with
  | none => (g, s)
  | some amt =>
      let s1 := { s with
                  invested := updQ s.invested name (s.invested name + amt)
                  investedKeys := addKey s.investedKeys name
                  totalContrib := updQ s.totalContrib name (s.totalContrib name + amt) }
      if s1.street = .preflop then preflop_roles g s1 name
      else
        let p := handle_postflop_aggr g s1 s1.street name
        (p.1, set_street_agg p.2 s1.street name)

/-- True when the player both checked earlier this street and has faced a
bet on it (check-raise precondition). -/
def checked_and_faced (s : HandState) (st : Street) (name : String) : Bool :=
  match st with
  | .flop => s.checkedFlop name && s.facedFlop name
  | .turn => s.checkedTurn name && s.facedTurn name
  | .river => s.checkedRiver name && s.facedRiver name
  | .preflop => false

/-- Record a check-raise in the global counters for the given street. -/
def add_check_raise (g : Agg) (st : Street) (name : String) : Agg :=
  match st with
  | .flop => { g with crFlop := updN g.crFlop name (g.crFlop name + 1) }
  | .turn => { g with crTurn := updN g.crTurn name (g.crTurn name + 1) }
  | .river => { g with crRiver := updN g.crRiver name (g.crRiver name + 1) }
  | .preflop => g

/-- Raise handler: raise-to semantics (never-negative delta against the
player's total contribution this hand), preflop roles or postflop
check-raise plus aggression handling. -/
def step_raise (g : Agg) (s : HandState) (name : String) (e : String) : Agg × HandState :=
  match parse_amount_after " raises to " e with
  | none => (g, s)
  | some toAmt =>
      let delta := max 0 (toAmt - s.totalContrib name)
      let s1 := { s with
                  invested := updQ s.invested name (s.invested name + delta)
                  investedKeys := addKey s.investedKeys name
                  totalContrib := updQ s.totalContrib name (s.totalContrib name + delta) }
      if s1.street = .preflop then preflop_roles g s1 name
      else
        let g1 := if checked_and_faced s1 s1.street name then add_check_raise g s1.street name
                  else g
        let p := handle_postflop_aggr g1 s1 s1.street name
        (p.1, set_street_agg p.2 s1.street name)

/-- Pot-collection handler. -/
def step_collected (g : Agg) (s : HandState) (name : String) (e : String) : Agg × HandState :=
  match searchLitDecimalLit " collected ".data " from pot".data e.data with
  | some amt =>
      (g, { s with
            collected := updQ s.collected name (s.collected name + amt)
            collectedKeys := addKey s.collectedKeys name })
  | none => (g, s)

/-- Ordered action-pattern dispatch for a line with an extracted player
name (after the preflop presence block has run). -/
def process_named (g : Agg) (s : HandState) (name : String) (e : String) : Agg × HandState :=
  if is_blind_line e then step_blind g s name e
  else if has_folds e then step_fold g s name
  else if has_calls e then step_call g s name e
  else if has_checks e then step_check g s name
  else if has_bets e then step_bet g s name e
  else if has_raises_to e then step_raise g s name e
  else if has_collected_pot e then step_collected g s name e
  else (g, s)

/-- Uncalled-bet-returned handler: the amount is subtracted from the key
captured by the second regex group, which is the whole quoted token. -/
def step_uncalled (g : Agg) (s : HandState) (e : String) : Agg × HandState :=
  match searchUncalled e.data with
  | some (amt, pname) =>
      (g, { s with
            invested := updQ s.invested pname (s.invested pname - amt)
            investedKeys := addKey s.investedKeys pname
            totalContrib := updQ s.totalContrib pname (s.totalContrib pname - amt) })
  | none => (g, s)

/-- One iteration of the entry loop of `analyze_all_stats`: the ordered
pattern dispatch over a single raw line. -/
def process_entry (g : Agg) (s : HandState) (e : String) : Agg × HandState :=
  if is_flop_marker e then (g, step_flop_marker s)
  else if is_turn_marker e then (g, step_turn_marker s)
  else if is_river_marker e then (g, step_river_marker s)
  else
    let s1 := { s with showdown := s.showdown || has_shows e }
    if starts_with_uncalled e then step_uncalled g s1 e
    else
      match extract_player_name e with
      | none => (g, s1)
      | some name =>
          let s2 := if s1.street = .preflop then presence_update s1 name else s1
          process_named g s2 name e

/-- Run the state machine over one hand's lines from a fresh per-hand state. -/
def process_entries (g : Agg) (hand : List String) : Agg × HandState :=
  hand.foldl (fun p e => process_entry p.1 p.2 e) (g, init_hand_state)

/-- The set `all_names = saw_preflop.keys() | invested.keys() | collected.keys()`
iterated by the per-hand post-processing, as a duplicate-free list. -/
def all_names (s : HandState) : List String :=
  (s.sawPreflopKeys ++ s.investedKeys ++ s.collectedKeys).foldl addKey []

/-- `shows_map` of the post-processing: players who explicitly showed, only
populated when the hand reached showdown. -/
def shows_map (s : HandState) (hand : List String) (n : String) : Bool :=
  s.showdown && hand.any (fun e => has_shows e && (extract_player_name e == some n))

/-- Per-hand tallies (lines 510-573 of the source): the loop over
`all_names` and the preflop-stat loop, as pointwise guarded updates over
the same key sets. -/
def post_tally (g : Agg) (s : HandState) (hand : List String) : Agg :=
  let names := all_names s
  let mem : String → Bool := fun n => decide (n ∈ names)
  let wtsdB : String → Bool := fun n => s.showdown && shows_map s hand n
  { g with
      handsPlayed := fun n => g.handsPlayed n + (if mem n && s.sawPreflop n then 1 else 0)
      handsPlayedKeys :=
        (names.filter (fun n => s.sawPreflop n)).foldl addKey g.handsPlayedKeys
      sawFlopHands := fun n => g.sawFlopHands n + (if mem n && s.sawFlopThis n then 1 else 0)
      sawTurnHands := fun n => g.sawTurnHands n + (if mem n && s.sawTurnThis n then 1 else 0)
      sawRiverHands := fun n =>
        g.sawRiverHands n + (if mem n && s.sawRiverThis n then 1 else 0)
      wtsdHands := fun n => g.wtsdHands n + (if mem n && wtsdB n then 1 else 0)
      wsdHands := fun n =>
        g.wsdHands n + (if mem n && wtsdB n && decide (0 < s.collected n) then 1 else 0)
      wwsfHands := fun n =>
        g.wwsfHands n +
          (if mem n && decide (0 < s.collected n) && s.sawFlopThis n then 1 else 0)
      netProfit := fun n =>
        g.netProfit n + (if mem n then s.collected n - s.invested n else 0)
      sdProfit := fun n =>
        g.sdProfit n + (if mem n && wtsdB n then s.collected n - s.invested n else 0)
      nonsdProfit := fun n =>
        g.nonsdProfit n + (if mem n && !(wtsdB n) then s.collected n - s.invested n else 0)
      afAggr := fun n => g.afAggr n + (if mem n then s.aggrPostflop n else 0)
      afCalls := fun n => g.afCalls n + (if mem n then s.callsPostflop n else 0)
      afFolds := fun n => g.afFolds n + (if mem n then s.foldsPostflop n else 0)
      vpipHands := fun n =>
        g.vpipHands n + (if mem n && s.sawPreflop n && s.vpipThis n then 1 else 0)
      pfrHands := fun n =>
        g.pfrHands n + (if mem n && s.sawPreflop n && s.pfrThis n then 1 else 0)
      openRaiseHands := fun n =>
        g.openRaiseHands n + (if mem n && s.sawPreflop n && s.openRaiseThis n then 1 else 0)
      threebetHands := fun n =>
        g.threebetHands n + (if mem n && s.sawPreflop n && s.threebetThis n then 1 else 0)
      fourbetHands := fun n =>
        g.fourbetHands n + (if mem n && s.sawPreflop n && s.fourbetThis n then 1 else 0)
      threebetOpp := fun n =>
        g.threebetOpp n + (if mem n && s.sawPreflop n && s.threebetOppThis n then 1 else 0)
      fourbetOpp := fun n =>
        g.fourbetOpp n + (if mem n && s.sawPreflop n && s.fourbetOppThis n then 1 else 0)
      foldTo3betHands := fun n =>
        g.foldTo3betHands n +
          (if mem n && s.sawPreflop n && s.foldTo3betThis n then 1 else 0)
      foldTo4betHands := fun n =>
        g.foldTo4betHands n +
          (if mem n && s.sawPreflop n && s.foldTo4betThis n then 1 else 0) }

/-- Flop continuation-bet opportunity accounting (lines 576-579). -/
def post_flop_opp (g : Agg) (s : HandState) (anyFlop : Bool) : Agg :=
  match s.preflopAgg with
  | some pa =>
      if anyFlop && s.sawFlopThis pa then
        { g with
          preflopAggFlopOpp := updN g.preflopAggFlopOpp pa (g.preflopAggFlopOpp pa + 1)
          flopCbetHands :=
            if s.flopCbetDone && (s.flopCbetBy == some pa) then
              updN g.flopCbetHands pa (g.flopCbetHands pa + 1)
            else g.flopCbetHands }
      else g
  | none => g

/-- Flop continuation-bet faced/fold accounting (lines 581-588). -/
def post_flop_faced (g : Agg) (s : HandState) : Agg :=
  if s.flopCbetDone then
    { g with
      flopCbetFacedOpp := fun n =>
        g.flopCbetFacedOpp n +
          (if (some n != s.flopCbetBy) && s.sawFlopThis n then 1 else 0)
      flopFoldToCbetHands := fun n =>
        g.flopFoldToCbetHands n +
          (if (some n != s.flopCbetBy) && s.sawFlopThis n && s.flopFoldToCbetThis n
           then 1 else 0) }
  else g

/-- Turn continuation-bet opportunity accounting (lines 590-593). -/
def post_turn_opp (g : Agg) (s : HandState) (anyTurn : Bool) : Agg :=
  match s.flopAgg with
  | some fa =>
      if anyTurn && s.sawTurnThis fa then
        { g with
          turnCbetOpp := updN g.turnCbetOpp fa (g.turnCbetOpp fa + 1)
          turnCbetHands :=
            if s.turnCbetDone && (s.turnCbetBy == some fa) then
              updN g.turnCbetHands fa (g.turnCbetHands fa + 1)
            else g.turnCbetHands }
      else g
  | none => g

/-- Turn continuation-bet faced/fold accounting (lines 595-602). -/
def post_turn_faced (g : Agg) (s : HandState) : Agg :=
  if s.turnCbetDone then
    { g with
      turnCbetFacedOpp := fun n =>
        g.turnCbetFacedOpp n +
          (if (some n != s.turnCbetBy) && s.sawTurnThis n then 1 else 0)
      turnFoldToCbetHands := fun n =>
        g.turnFoldToCbetHands n +
          (if (some n != s.turnCbetBy) && s.sawTurnThis n && s.turnFoldToCbetThis n
           then 1 else 0) }
  else g

/-- River continuation-bet opportunity accounting (lines 604-607). -/
def post_river_opp (g : Agg) (s : HandState) (anyRiver : Bool) : Agg :=
  match s.turnAgg with
  | some ta =>
      if anyRiver && s.sawRiverThis ta then
        { g with
          riverCbetOpp := updN g.riverCbetOpp ta (g.riverCbetOpp ta + 1)
          riverCbetHands :=
            if s.riverCbetDone && (s.riverCbetBy == some ta) then
              updN g.riverCbetHands ta (g.riverCbetHands ta + 1)
            else g.riverCbetHands }
      else g
  | none => g

/-- River continuation-bet faced/fold accounting (lines 609-616). -/
def post_river_faced (g : Agg) (s : HandState) : Agg :=
  if s.riverCbetDone then
    { g with
      riverCbetFacedOpp := fun n =>
        g.riverCbetFacedOpp n +
          (if (some n != s.riverCbetBy) && s.sawRiverThis n then 1 else 0)
      riverFoldToCbetHands := fun n =>
        g.riverFoldToCbetHands n +
          (if (some n != s.riverCbetBy) && s.sawRiverThis n && s.riverFoldToCbetThis n
           then 1 else 0) }
  else g

/-- Per-hand post-processing (lines 485-616 of the source). -/
def post_process (g : Agg) (s : HandState) (hand : List String) : Agg :=
  post_river_faced
    (post_river_opp
      (post_turn_faced
        (post_turn_opp
          (post_flop_faced
            (post_flop_opp (post_tally g s hand) s (hand.any is_flop_marker)) s)
          s (hand.any is_turn_marker))
        s)
      s (hand.any is_river_marker))
    s

/-- Process one whole hand: per-entry state machine then post-processing. -/
def process_hand (g : Agg) (hand : List String) : Agg :=
  let p := process_entries g hand
  post_process p.1 p.2 hand

/-- `analyze_all_stats` accumulation over every hand of the log. -/
def analyze_hands (hands : List (List String)) : Agg :=
  hands.foldl process_hand init_agg

/-- Python `round` on an exact rational: round half to even. -/
def py_round_int (q : ℚ) : ℤ :=
  let f := ⌊q⌋
  let r := q - (f : ℚ)
  if r < 1 / 2 then f
  else if 1 / 2 < r then f + 1
  else if f % 2 = 0 then f else f + 1

/-- Python `round(q, d)`. -/
def round_to (d : ℕ) (q : ℚ) : ℚ :=
  (py_round_int (q * (10 : ℚ) ^ d) : ℚ) / (10 : ℚ) ^ d

/-- One output record of the final statistics table. -/
structure Row where
  player : String
  hands : ℕ
  bb100 : ℚ
  sdBb100 : ℚ
  nonsdBb100 : ℚ
  vpipPct : ℚ
  pfrPct : ℚ
  limpPct : ℚ
  callOpenPct : ℚ
  squeezePct : ℚ
  threePct : ℚ
  fourPct : ℚ
  foldTo3Pct : ℚ
  foldTo4Pct : ℚ
  af : ℚ
  afqPct : ℚ
  sawFlop : ℕ
  wtsdPct : ℚ
  wsdPct : ℚ
  wwsfPct : ℚ
  flopCbetPct : ℚ
  foldFlopCbetPct : ℚ
  turnCbetPct : ℚ
  foldTurnCbetPct : ℚ
  riverCbetPct : ℚ
  foldRiverCbetPct : ℚ
  crFlopPct : ℚ
  crTurnPct : ℚ
  crRiverPct : ℚ
  donkFlopPct : ℚ
  donkTurnPct : ℚ
  donkRiverPct : ℚ

/-- Build the output row for player `n` (lines 620-746 of the source). -/
def build_row (g : Agg) (big_blind : ℚ) (n : String) : Row :=
  let h := g.handsPlayed n
  let vpip := 100 * (g.vpipHands n : ℚ) / h
  let pfr := 100 * (g.pfrHands n : ℚ) / h
  let bb100 := if 0 < big_blind then (g.netProfit n / big_blind) / h * 100 else 0
  let sf := g.sawFlopHands n
  let st := g.sawTurnHands n
  let sr := g.sawRiverHands n
  let wtsdPct := if 0 < sf then 100 * (g.wtsdHands n : ℚ) / sf else 0
  let wsdPct := if 0 < g.wtsdHands n then 100 * (g.wsdHands n : ℚ) / g.wtsdHands n else 0
  let wwsfPct := if 0 < sf then 100 * (g.wwsfHands n : ℚ) / sf else 0
  let threeOpp := g.threebetOpp n
  let fourOpp := g.fourbetOpp n
  let threePct := if 0 < threeOpp then 100 * (g.threebetHands n : ℚ) / threeOpp else 0
  let fourPct := if 0 < fourOpp then 100 * (g.fourbetHands n : ℚ) / fourOpp else 0
  let ft3Pct := if 0 < threeOpp then 100 * (g.foldTo3betHands n : ℚ) / threeOpp else 0
  let ft4Pct := if 0 < fourOpp then 100 * (g.foldTo4betHands n : ℚ) / fourOpp else 0
  let flopCbetOppVal := g.preflopAggFlopOpp n
  let flopCbetPct :=
    if 0 < flopCbetOppVal then 100 * (g.flopCbetHands n : ℚ) / flopCbetOppVal else 0
  let flopFaced := g.flopCbetFacedOpp n
  let foldFlopCbetPct :=
    if 0 < flopFaced then 100 * (g.flopFoldToCbetHands n : ℚ) / flopFaced else 0
  let turnCopp := g.turnCbetOpp n
  let turnCbetPct := if 0 < turnCopp then 100 * (g.turnCbetHands n : ℚ) / turnCopp else 0
  let turnFaced := g.turnCbetFacedOpp n
  let foldTurnCbetPct :=
    if 0 < turnFaced then 100 * (g.turnFoldToCbetHands n : ℚ) / turnFaced else 0
  let riverCopp := g.riverCbetOpp n
  let riverCbetPct :=
    if 0 < riverCopp then 100 * (g.riverCbetHands n : ℚ) / riverCopp else 0
  let riverFaced := g.riverCbetFacedOpp n
  let foldRiverCbetPct :=
    if 0 < riverFaced then 100 * (g.riverFoldToCbetHands n : ℚ) / riverFaced else 0
  let aggr := g.afAggr n
  let calls := g.afCalls n
  let folds := g.afFolds n
  let af := if 0 < calls then (aggr : ℚ) / calls else 0
  let totalPfAct := aggr + calls + folds
  let afq := if 0 < totalPfAct then 100 * (aggr : ℚ) / totalPfAct else 0
  let crFlopPct := if 0 < sf then 100 * (g.crFlop n : ℚ) / sf else 0
  let crTurnPct := if 0 < st then 100 * (g.crTurn n : ℚ) / st else 0
  let crRiverPct := if 0 < sr then 100 * (g.crRiver n : ℚ) / sr else 0
  let donkFlopPct := if 0 < sf then 100 * (g.donkFlop n : ℚ) / sf else 0
  let donkTurnPct := if 0 < st then 100 * (g.donkTurn n : ℚ) / st else 0
  let donkRiverPct := if 0 < sr then 100 * (g.donkRiver n : ℚ) / sr else 0
  let sdBb100 := if 0 < big_blind then (g.sdProfit n / big_blind) / h * 100 else 0
  let nonsdBb100 := if 0 < big_blind then (g.nonsdProfit n / big_blind) / h * 100 else 0
  let limpPct := if 0 < h then 100 * (g.limpHands n : ℚ) / h else 0
  let callopenPct := if 0 < h then 100 * (g.callOpenHands n : ℚ) / h else 0
  let squeezePct := if 0 < h then 100 * (g.squeezeHands n : ℚ) / h else 0
  { player := n
    hands := h
    bb100 := round_to 1 bb100
    sdBb100 := round_to 1 sdBb100
    nonsdBb100 := round_to 1 nonsdBb100
    vpipPct := round_to 1 vpip
    pfrPct := round_to 1 pfr
    limpPct := round_to 1 limpPct
    callOpenPct := round_to 1 callopenPct
    squeezePct := round_to 1 squeezePct
    threePct := round_to 1 threePct
    fourPct := round_to 1 fourPct
    foldTo3Pct := round_to 1 ft3Pct
    foldTo4Pct := round_to 1 ft4Pct
    af := round_to 2 af
    afqPct := round_to 1 afq
    sawFlop := sf
    wtsdPct := round_to 1 wtsdPct
    wsdPct := round_to 1 wsdPct
    wwsfPct := round_to 1 wwsfPct
    flopCbetPct := round_to 1 flopCbetPct
    foldFlopCbetPct := round_to 1 foldFlopCbetPct
    turnCbetPct := round_to 1 turnCbetPct
    foldTurnCbetPct := round_to 1 foldTurnCbetPct
    riverCbetPct := round_to 1 riverCbetPct
    foldRiverCbetPct := round_to 1 foldRiverCbetPct
    crFlopPct := round_to 1 crFlopPct
    crTurnPct := round_to 1 crTurnPct
    crRiverPct := round_to 1 crRiverPct
    donkFlopPct := round_to 1 donkFlopPct
    donkTurnPct := round_to 1 donkTurnPct
    donkRiverPct := round_to 1 donkRiverPct }

/-- Players that receive a row in the final output: the keys of
`hands_played` whose count is nonzero. -/
def output_players (g : Agg) : List String :=
  g.handsPlayedKeys.filter (fun n => g.handsPlayed n != 0)

/-- Within one hand the role chain is monotone: a 3-bettor only exists once
an opener does, a 4-bettor only once a 3-bettor does. -/
def RoleInv (s : HandState) : Prop :=
  (s.openRaiser = none → s.threeBettor = none) ∧
  (s.threeBettor = none → s.fourBettor = none)

/-- Every player marked active, or as having seen a street, was dealt in
preflop. -/
def SubInv (s : HandState) : Prop :=
  (∀ n, s.active n = true → s.sawPreflop n = true) ∧
  (∀ n, s.sawFlopThis n = true → s.sawPreflop n = true) ∧
  (∀ n, s.sawTurnThis n = true → s.sawPreflop n = true) ∧
  (∀ n, s.sawRiverThis n = true → s.sawPreflop n = true)

/-- Every player recorded as dealt in has a key in the `saw_preflop` dict. -/
def KeysInv (s : HandState) : Prop :=
  ∀ n, s.sawPreflop n = true → n ∈ s.sawPreflopKeys

/-- Folding the per-entry step over a list of lines. -/
def entries_step (p : Agg × HandState) (e : String) : Agg × HandState :=
  process_entry p.1 p.2 e

/-- A line that reaches the preflop presence block and names player `n`:
not a street marker, not an uncalled-bet line, and `n` is the extracted
display name. -/
def reaches_presence (e n : String) : Bool :=
  !is_street_marker e && !starts_with_uncalled e && (extract_player_name e == some n)

/-- Player `n` appears, with an extractable name, in some line of the hand
processed while the street is still preflop (that is, before the first
street-marker line). -/
def appears_preflop (n : String) : List String → Bool
  | [] => false
  | e :: es =>
      if is_street_marker e then false
      else reaches_presence e n || appears_preflop n es

/-- A well-formed segmented hand: nonempty, begins with a hand-start marker,
and contains no further hand-start marker after its first line. -/
def GoodHand (h : List String) : Prop :=
  ∃ e t, h = e :: t ∧ is_hand_start e = true ∧ ∀ x ∈ t, is_hand_start x = false

/-- Hand of §8's 3-bet scenario: A opens to 0.60, B re-raises to 1.80,
A folds. -/
def scenario_3bet_hand : List String :=
  ["-- starting hand #1 --", "\"A @ 1\" raises to 0.60", "\"B @ 2\" raises to 1.80",
   "\"A @ 1\" folds"]

/-- Hand with a call line whose amount text (`5`, no decimal point) does not
match the amount regex. -/
def malformed_call_hand : List String :=
  ["-- starting hand #1 --", "\"A @ 1\" calls 5"]

/-- Hand in which A posts a blind and then has an uncalled bet returned. -/
def uncalled_return_hand : List String :=
  ["-- starting hand #1 --", "\"A @ 1\" posts a small blind of 0.50",
   "Uncalled bet of 0.50 returned to \"A @ 1\""]

/-- Hand with a full opener-3bet-4bet-by-opener sequence. -/
def fourbet_hand : List String :=
  ["-- starting hand #1 --", "\"A @ 1\" raises to 0.60", "\"B @ 2\" raises to 1.80",
   "\"A @ 1\" raises to 4.00"]

/-- Hand in which A sees the flop, shows at showdown, and collects the pot. -/
def showdown_win_hand : List String :=
  ["-- starting hand #1 --", "\"A @ 1\" raises to 0.60", "*** FLOP ***",
   "\"A @ 1\" shows a Kc", "\"A @ 1\" collected 1.00 from pot"]

/-- Input whose first line precedes the first hand-start marker. -/
def junk_prefix_input : List String :=
  ["junk", "-- starting hand #2 --"]

/-- Input that does begin with a hand-start marker. -/
def marker_first_input : List String :=
  ["-- starting hand #1 --", "\"A @ 1\" calls 0.10", "-- starting hand #2 --",
   "\"B @ 2\" folds"]

/-- Single hand used to exercise the output formulas. -/
def limp_hand : List String :=
  ["-- starting hand #1 --", "\"A @ 1\" calls 0.10"]

/-- Hand whose only action line is a pot collection, occurring while the
street is still preflop (no street marker precedes it). -/
def preflop_collect_hand : List String :=
  ["-- starting hand #1 --", "\"C @ 3\" collected 0.50 from pot"]

section FrameLemmas

variable (g : Agg) (s : HandState) (name e : String)

@[simp] lemma step_blind_fields :
    (step_blind g s name e).1 = g ∧
    (step_blind g s name e).2.openRaiser = s.openRaiser ∧
    (step_blind g s name e).2.threeBettor = s.threeBettor ∧
    (step_blind g s name e).2.fourBettor = s.fourBettor ∧
    (step_blind g s name e).2.fourbetThis = s.fourbetThis ∧
    (step_blind g s name e).2.fourbetOppThis = s.fourbetOppThis ∧
    (step_blind g s name e).2.sawPreflop = s.sawPreflop ∧
    (step_blind g s name e).2.sawPreflopKeys = s.sawPreflopKeys ∧
    (step_blind g s name e).2.street = s.street ∧
    (step_blind g s name e).2.active = s.active ∧
    (step_blind g s name e).2.sawFlopThis = s.sawFlopThis ∧
    (step_blind g s name e).2.sawTurnThis = s.sawTurnThis ∧
    (step_blind g s name e).2.sawRiverThis = s.sawRiverThis := by
  unfold step_blind
  split <;> simp

@[simp] lemma step_uncalled_fields :
    (step_uncalled g s e).1 = g ∧
    (step_uncalled g s e).2.openRaiser = s.openRaiser ∧
    (step_uncalled g s e).2.threeBettor = s.threeBettor ∧
    (step_uncalled g s e).2.fourBettor = s.fourBettor ∧
    (step_uncalled g s e).2.fourbetThis = s.fourbetThis ∧
    (step_uncalled g s e).2.fourbetOppThis = s.fourbetOppThis ∧
    (step_uncalled g s e).2.sawPreflop = s.sawPreflop ∧
    (step_uncalled g s e).2.sawPreflopKeys = s.sawPreflopKeys ∧
    (step_uncalled g s e).2.street = s.street ∧
    (step_uncalled g s e).2.active = s.active ∧
    (step_uncalled g s e).2.sawFlopThis = s.sawFlopThis ∧
    (step_uncalled g s e).2.sawTurnThis = s.sawTurnThis ∧
    (step_uncalled g s e).2.sawRiverThis = s.sawRiverThis := by
  unfold step_uncalled
  split <;> simp

@[simp] lemma step_fold_fields :
    (step_fold g s name).1 = g ∧
    (step_fold g s name).2.openRaiser = s.openRaiser ∧
    (step_fold g s name).2.threeBettor = s.threeBettor ∧
    (step_fold g s name).2.fourBettor = s.fourBettor ∧
    (step_fold g s name).2.fourbetThis = s.fourbetThis ∧
    (step_fold g s name).2.fourbetOppThis = s.fourbetOppThis ∧
    (step_fold g s name).2.sawPreflop = s.sawPreflop ∧
    (step_fold g s name).2.sawPreflopKeys = s.sawPreflopKeys ∧
    (step_fold g s name).2.street = s.street ∧
    (step_fold g s name).2.active = updB s.active name false ∧
    (step_fold g s name).2.sawFlopThis = s.sawFlopThis ∧
    (step_fold g s name).2.sawTurnThis = s.sawTurnThis ∧
    (step_fold g s name).2.sawRiverThis = s.sawRiverThis := by
  unfold step_fold
  split <;> simp

@[simp] lemma step_check_fields :
    (step_check g s name).1 = g ∧
    (step_check g s name).2.openRaiser = s.openRaiser ∧
    (step_check g s name).2.threeBettor = s.threeBettor ∧
    (step_check g s name).2.fourBettor = s.fourBettor ∧
    (step_check g s name).2.fourbetThis = s.fourbetThis ∧
    (step_check g s name).2.fourbetOppThis = s.fourbetOppThis ∧
    (step_check g s name).2.sawPreflop = s.sawPreflop ∧
    (step_check g s name).2.sawPreflopKeys = s.sawPreflopKeys ∧
    (step_check g s name).2.street = s.street ∧
    (step_check g s name).2.active = s.active ∧
    (step_check g s name).2.sawFlopThis = s.sawFlopThis ∧
    (step_check g s name).2.sawTurnThis = s.sawTurnThis ∧
    (step_check g s name).2.sawRiverThis = s.sawRiverThis := by
  unfold step_check
  cases h : s.street <;> simp [h]

@[simp] lemma step_collected_fields :
    (step_collected g s name e).1 = g ∧
    (step_collected g s name e).2.openRaiser = s.openRaiser ∧
    (step_collected g s name e).2.threeBettor = s.threeBettor ∧
    (step_collected g s name e).2.fourBettor = s.fourBettor ∧
    (step_collected g s name e).2.fourbetThis = s.fourbetThis ∧
    (step_collected g s name e).2.fourbetOppThis = s.fourbetOppThis ∧
    (step_collected g s name e).2.sawPreflop = s.sawPreflop ∧
    (step_collected g s name e).2.sawPreflopKeys = s.sawPreflopKeys ∧
    (step_collected g s name e).2.street = s.street ∧
    (step_collected g s name e).2.active = s.active ∧
    (step_collected g s name e).2.sawFlopThis = s.sawFlopThis ∧
    (step_collected g s name e).2.sawTurnThis = s.sawTurnThis ∧
    (step_collected g s name e).2.sawRiverThis = s.sawRiverThis := by
  unfold step_collected
  split <;> simp

@[simp] lemma set_faced_fields (st : Street) :
    (set_faced s st name).openRaiser = s.openRaiser ∧
    (set_faced s st name).threeBettor = s.threeBettor ∧
    (set_faced s st name).fourBettor = s.fourBettor ∧
    (set_faced s st name).fourbetThis = s.fourbetThis ∧
    (set_faced s st name).fourbetOppThis = s.fourbetOppThis ∧
    (set_faced s st name).sawPreflop = s.sawPreflop ∧
    (set_faced s st name).sawPreflopKeys = s.sawPreflopKeys ∧
    (set_faced s st name).street = s.street ∧
    (set_faced s st name).active = s.active ∧
    (set_faced s st name).sawFlopThis = s.sawFlopThis ∧
    (set_faced s st name).sawTurnThis = s.sawTurnThis ∧
    (set_faced s st name).sawRiverThis = s.sawRiverThis := by
  unfold set_faced
  cases st <;> simp

@[simp] lemma mark_others_faced_fields (st : Street) :
    (mark_others_faced s st name).openRaiser = s.openRaiser ∧
    (mark_others_faced s st name).threeBettor = s.threeBettor ∧
    (mark_others_faced s st name).fourBettor = s.fourBettor ∧
    (mark_others_faced s st name).fourbetThis = s.fourbetThis ∧
    (mark_others_faced s st name).fourbetOppThis = s.fourbetOppThis ∧
    (mark_others_faced s st name).sawPreflop = s.sawPreflop ∧
    (mark_others_faced s st name).sawPreflopKeys = s.sawPreflopKeys ∧
    (mark_others_faced s st name).street = s.street ∧
    (mark_others_faced s st name).active = s.active ∧
    (mark_others_faced s st name).sawFlopThis = s.sawFlopThis ∧
    (mark_others_faced s st name).sawTurnThis = s.sawTurnThis ∧
    (mark_others_faced s st name).sawRiverThis = s.sawRiverThis := by
  unfold mark_others_faced
  cases st <;> simp

@[simp] lemma set_street_agg_fields (st : Street) :
    (set_street_agg s st name).openRaiser = s.openRaiser ∧
    (set_street_agg s st name).threeBettor = s.threeBettor ∧
    (set_street_agg s st name).fourBettor = s.fourBettor ∧
    (set_street_agg s st name).fourbetThis = s.fourbetThis ∧
    (set_street_agg s st name).fourbetOppThis = s.fourbetOppThis ∧
    (set_street_agg s st name).sawPreflop = s.sawPreflop ∧
    (set_street_agg s st name).sawPreflopKeys = s.sawPreflopKeys ∧
    (set_street_agg s st name).street = s.street ∧
    (set_street_agg s st name).active = s.active ∧
    (set_street_agg s st name).sawFlopThis = s.sawFlopThis ∧
    (set_street_agg s st name).sawTurnThis = s.sawTurnThis ∧
    (set_street_agg s st name).sawRiverThis = s.sawRiverThis := by
  unfold set_street_agg
  cases st <;> simp

@[simp] lemma add_check_raise_fields (st : Street) :
    (add_check_raise g st name).handsPlayed = g.handsPlayed ∧
    (add_check_raise g st name).handsPlayedKeys = g.handsPlayedKeys ∧
    (add_check_raise g st name).sawFlopHands = g.sawFlopHands ∧
    (add_check_raise g st name).sawTurnHands = g.sawTurnHands ∧
    (add_check_raise g st name).sawRiverHands = g.sawRiverHands ∧
    (add_check_raise g st name).fourbetHands = g.fourbetHands ∧
    (add_check_raise g st name).fourbetOpp = g.fourbetOpp := by
  unfold add_check_raise
  cases st <;> simp

@[simp] lemma handle_postflop_aggr_fields (st : Street) :
    (handle_postflop_aggr g s st name).1.handsPlayed = g.handsPlayed ∧
    (handle_postflop_aggr g s st name).1.handsPlayedKeys = g.handsPlayedKeys ∧
    (handle_postflop_aggr g s st name).1.sawFlopHands = g.sawFlopHands ∧
    (handle_postflop_aggr g s st name).1.sawTurnHands = g.sawTurnHands ∧
    (handle_postflop_aggr g s st name).1.sawRiverHands = g.sawRiverHands ∧
    (handle_postflop_aggr g s st name).1.fourbetHands = g.fourbetHands ∧
    (handle_postflop_aggr g s st name).1.fourbetOpp = g.fourbetOpp ∧
    (handle_postflop_aggr g s st name).2.openRaiser = s.openRaiser ∧
    (handle_postflop_aggr g s st name).2.threeBettor = s.threeBettor ∧
    (handle_postflop_aggr g s st name).2.fourBettor = s.fourBettor ∧
    (handle_postflop_aggr g s st name).2.fourbetThis = s.fourbetThis ∧
    (handle_postflop_aggr g s st name).2.fourbetOppThis = s.fourbetOppThis ∧
    (handle_postflop_aggr g s st name).2.sawPreflop = s.sawPreflop ∧
    (handle_postflop_aggr g s st name).2.sawPreflopKeys = s.sawPreflopKeys ∧
    (handle_postflop_aggr g s st name).2.street = s.street ∧
    (handle_postflop_aggr g s st name).2.active = s.active ∧
    (handle_postflop_aggr g s st name).2.sawFlopThis = s.sawFlopThis ∧
    (handle_postflop_aggr g s st name).2.sawTurnThis = s.sawTurnThis ∧
    (handle_postflop_aggr g s st name).2.sawRiverThis = s.sawRiverThis := by
  unfold handle_postflop_aggr mark_others_faced
  cases st <;> dsimp only
  case preflop => simp
  case flop => cases s.preflopAgg <;> (repeat' split) <;> simp
  case turn => cases s.flopAgg <;> (repeat' split) <;> simp
  case river => cases s.turnAgg <;> (repeat' split) <;> simp

@[simp] lemma preflop_roles_fields :
    (preflop_roles g s name).1.handsPlayed = g.handsPlayed ∧
    (preflop_roles g s name).1.handsPlayedKeys = g.handsPlayedKeys ∧
    (preflop_roles g s name).1.sawFlopHands = g.sawFlopHands ∧
    (preflop_roles g s name).1.sawTurnHands = g.sawTurnHands ∧
    (preflop_roles g s name).1.sawRiverHands = g.sawRiverHands ∧
    (preflop_roles g s name).1.fourbetHands = g.fourbetHands ∧
    (preflop_roles g s name).1.fourbetOpp = g.fourbetOpp ∧
    (preflop_roles g s name).2.fourbetOppThis = s.fourbetOppThis ∧
    (preflop_roles g s name).2.sawPreflop = s.sawPreflop ∧
    (preflop_roles g s name).2.sawPreflopKeys = s.sawPreflopKeys ∧
    (preflop_roles g s name).2.street = s.street ∧
    (preflop_roles g s name).2.active = s.active ∧
    (preflop_roles g s name).2.sawFlopThis = s.sawFlopThis ∧
    (preflop_roles g s name).2.sawTurnThis = s.sawTurnThis ∧
    (preflop_roles g s name).2.sawRiverThis = s.sawRiverThis := by
  unfold preflop_roles
  dsimp only
  split_ifs <;> simp

@[simp] lemma step_call_fields :
    (step_call g s name e).1.handsPlayed = g.handsPlayed ∧
    (step_call g s name e).1.handsPlayedKeys = g.handsPlayedKeys ∧
    (step_call g s name e).1.sawFlopHands = g.sawFlopHands ∧
    (step_call g s name e).1.sawTurnHands = g.sawTurnHands ∧
    (step_call g s name e).1.sawRiverHands = g.sawRiverHands ∧
    (step_call g s name e).1.fourbetHands = g.fourbetHands ∧
    (step_call g s name e).1.fourbetOpp = g.fourbetOpp ∧
    (step_call g s name e).2.openRaiser = s.openRaiser ∧
    (step_call g s name e).2.threeBettor = s.threeBettor ∧
    (step_call g s name e).2.fourBettor = s.fourBettor ∧
    (step_call g s name e).2.fourbetThis = s.fourbetThis ∧
    (step_call g s name e).2.fourbetOppThis = s.fourbetOppThis ∧
    (step_call g s name e).2.sawPreflop = s.sawPreflop ∧
    (step_call g s name e).2.sawPreflopKeys = s.sawPreflopKeys ∧
    (step_call g s name e).2.street = s.street ∧
    (step_call g s name e).2.active = s.active ∧
    (step_call g s name e).2.sawFlopThis = s.sawFlopThis ∧
    (step_call g s name e).2.sawTurnThis = s.sawTurnThis ∧
    (step_call g s name e).2.sawRiverThis = s.sawRiverThis := by
  unfold step_call
  dsimp only
  (repeat' split) <;> simp

@[simp] lemma step_bet_fields :
    (step_bet g s name e).1.handsPlayed = g.handsPlayed ∧
    (step_bet g s name e).1.handsPlayedKeys = g.handsPlayedKeys ∧
    (step_bet g s name e).1.sawFlopHands = g.sawFlopHands ∧
    (step_bet g s name e).1.sawTurnHands = g.sawTurnHands ∧
    (step_bet g s name e).1.sawRiverHands = g.sawRiverHands ∧
    (step_bet g s name e).1.fourbetHands = g.fourbetHands ∧
    (step_bet g s name e).1.fourbetOpp = g.fourbetOpp ∧
    (step_bet g s name e).2.fourbetOppThis = s.fourbetOppThis ∧
    (step_bet g s name e).2.sawPreflop = s.sawPreflop ∧
    (step_bet g s name e).2.sawPreflopKeys = s.sawPreflopKeys ∧
    (step_bet g s name e).2.street = s.street ∧
    (step_bet g s name e).2.active = s.active ∧
    (step_bet g s name e).2.sawFlopThis = s.sawFlopThis ∧
    (step_bet g s name e).2.sawTurnThis = s.sawTurnThis ∧
    (step_bet g s name e).2.sawRiverThis = s.sawRiverThis := by
  unfold step_bet
  dsimp only
  (repeat' split) <;> simp

@[simp] lemma step_raise_fields :
    (step_raise g s name e).1.handsPlayed = g.handsPlayed ∧
    (step_raise g s name e).1.handsPlayedKeys = g.handsPlayedKeys ∧
    (step_raise g s name e).1.sawFlopHands = g.sawFlopHands ∧
    (step_raise g s name e).1.sawTurnHands = g.sawTurnHands ∧
    (step_raise g s name e).1.sawRiverHands = g.sawRiverHands ∧
    (step_raise g s name e).1.fourbetHands = g.fourbetHands ∧
    (step_raise g s name e).1.fourbetOpp = g.fourbetOpp ∧
    (step_raise g s name e).2.fourbetOppThis = s.fourbetOppThis ∧
    (step_raise g s name e).2.sawPreflop = s.sawPreflop ∧
    (step_raise g s name e).2.sawPreflopKeys = s.sawPreflopKeys ∧
    (step_raise g s name e).2.street = s.street ∧
    (step_raise g s name e).2.active = s.active ∧
    (step_raise g s name e).2.sawFlopThis = s.sawFlopThis ∧
    (step_raise g s name e).2.sawTurnThis = s.sawTurnThis ∧
    (step_raise g s name e).2.sawRiverThis = s.sawRiverThis := by
  unfold step_raise
  dsimp only
  (repeat' split) <;> simp

@[simp] lemma presence_update_fields :
    (presence_update s name).openRaiser = s.openRaiser ∧
    (presence_update s name).threeBettor = s.threeBettor ∧
    (presence_update s name).fourBettor = s.fourBettor ∧
    (presence_update s name).fourbetThis = s.fourbetThis ∧
    (presence_update s name).street = s.street ∧
    (presence_update s name).sawFlopThis = s.sawFlopThis ∧
    (presence_update s name).sawTurnThis = s.sawTurnThis ∧
    (presence_update s name).sawRiverThis = s.sawRiverThis ∧
    (presence_update s name).sawPreflop = updB s.sawPreflop name true ∧
    (presence_update s name).sawPreflopKeys = addKey s.sawPreflopKeys name ∧
    (presence_update s name).active = updB s.active name true := by
  unfold presence_update
  simp

@[simp] lemma step_flop_marker_fields :
    (step_flop_marker s).openRaiser = s.openRaiser ∧
    (step_flop_marker s).threeBettor = s.threeBettor ∧
    (step_flop_marker s).fourBettor = s.fourBettor ∧
    (step_flop_marker s).fourbetThis = s.fourbetThis ∧
    (step_flop_marker s).fourbetOppThis = s.fourbetOppThis ∧
    (step_flop_marker s).sawPreflop = s.sawPreflop ∧
    (step_flop_marker s).sawPreflopKeys = s.sawPreflopKeys ∧
    (step_flop_marker s).street = Street.flop ∧
    (step_flop_marker s).active = s.active ∧
    (step_flop_marker s).sawFlopThis = (fun n => s.sawFlopThis n || s.active n) ∧
    (step_flop_marker s).sawTurnThis = s.sawTurnThis ∧
    (step_flop_marker s).sawRiverThis = s.sawRiverThis := by
  unfold step_flop_marker
  simp

@[simp] lemma step_turn_marker_fields :
    (step_turn_marker s).openRaiser = s.openRaiser ∧
    (step_turn_marker s).threeBettor = s.threeBettor ∧
    (step_turn_marker s).fourBettor = s.fourBettor ∧
    (step_turn_marker s).fourbetThis = s.fourbetThis ∧
    (step_turn_marker s).fourbetOppThis = s.fourbetOppThis ∧
    (step_turn_marker s).sawPreflop = s.sawPreflop ∧
    (step_turn_marker s).sawPreflopKeys = s.sawPreflopKeys ∧
    (step_turn_marker s).street = Street.turn ∧
    (step_turn_marker s).active = s.active ∧
    (step_turn_marker s).sawFlopThis = s.sawFlopThis ∧
    (step_turn_marker s).sawTurnThis = (fun n => s.sawTurnThis n || s.active n) ∧
    (step_turn_marker s).sawRiverThis = s.sawRiverThis := by
  unfold step_turn_marker
  simp

@[simp] lemma step_river_marker_fields :
    (step_river_marker s).openRaiser = s.openRaiser ∧
    (step_river_marker s).threeBettor = s.threeBettor ∧
    (step_river_marker s).fourBettor = s.fourBettor ∧
    (step_river_marker s).fourbetThis = s.fourbetThis ∧
    (step_river_marker s).fourbetOppThis = s.fourbetOppThis ∧
    (step_river_marker s).sawPreflop = s.sawPreflop ∧
    (step_river_marker s).sawPreflopKeys = s.sawPreflopKeys ∧
    (step_river_marker s).street = Street.river ∧
    (step_river_marker s).active = s.active ∧
    (step_river_marker s).sawFlopThis = s.sawFlopThis ∧
    (step_river_marker s).sawTurnThis = s.sawTurnThis ∧
    (step_river_marker s).sawRiverThis = (fun n => s.sawRiverThis n || s.active n) := by
  unfold step_river_marker
  simp

end FrameLemmas

section RoleLemmas

variable (g : Agg) (s : HandState) (name e : String)

lemma mem_addKey {x k : String} {l : List String} : x ∈ addKey l k ↔ x ∈ l ∨ x = k := by
  unfold addKey
  split
  · constructor
    · exact fun h => Or.inl h
    · rintro (h | rfl)
      · exact h
      · assumption
  · simp

lemma preflop_roles_openRaiser_stable {x : String} (h : s.openRaiser = some x) :
    (preflop_roles g s name).2.openRaiser = some x := by
  unfold preflop_roles
  dsimp only
  split_ifs <;> simp_all

lemma preflop_roles_threeBettor_stable {x : String} (h : s.threeBettor = some x) :
    (preflop_roles g s name).2.threeBettor = some x := by
  unfold preflop_roles
  dsimp only
  split_ifs <;> simp_all

lemma preflop_roles_fourBettor_stable {x : String} (h : s.fourBettor = some x) :
    (preflop_roles g s name).2.fourBettor = some x := by
  unfold preflop_roles
  dsimp only
  split_ifs <;> simp_all

lemma preflop_roles_roleInv (h : RoleInv s) : RoleInv (preflop_roles g s name).2 := by
  unfold preflop_roles RoleInv
  obtain ⟨h1, h2⟩ := h
  dsimp only
  split_ifs <;> simp_all [Option.isNone_iff_eq_none]

lemma preflop_roles_fourbetThis_new {p : String}
    (h : (preflop_roles g s name).2.fourbetThis p = true) :
    s.fourbetThis p = true ∨
      (p = name ∧ s.openRaiser = some name ∧ s.threeBettor ≠ none ∧ s.fourBettor = none) := by
  unfold preflop_roles at h
  dsimp only at h
  split_ifs at h with h1 h2 hsq h3
  · exact Or.inl (by simpa using h)
  · exact Or.inl (by simpa using h)
  · exact Or.inl (by simpa using h)
  · rw [Bool.and_eq_true] at h3
    by_cases hp : p = name
    · refine Or.inr ⟨hp, ?_, ?_, ?_⟩
      · exact beq_iff_eq.mp h3.2
      · simpa [Option.isNone_iff_eq_none] using h2
      · simpa [Option.isNone_iff_eq_none] using h3.1
    · left
      simpa [updB, hp] using h
  · exact Or.inl (by simpa using h)

lemma step_bet_roles :
    (∀ x, s.openRaiser = some x → (step_bet g s name e).2.openRaiser = some x) ∧
    (∀ x, s.threeBettor = some x → (step_bet g s name e).2.threeBettor = some x) ∧
    (∀ x, s.fourBettor = some x → (step_bet g s name e).2.fourBettor = some x) ∧
    (RoleInv s → RoleInv (step_bet g s name e).2) ∧
    (∀ p, (step_bet g s name e).2.fourbetThis p = true →
        s.fourbetThis p = true ∨
          (p = name ∧ s.openRaiser = some name ∧ s.threeBettor ≠ none ∧ s.fourBettor = none ∧
            s.street = .preflop)) := by
  unfold step_bet
  dsimp only
  split
  · exact ⟨fun x h => h, fun x h => h, fun x h => h, fun h => h, fun p h => Or.inl h⟩
  · split_ifs with hst
    · refine ⟨fun x h => preflop_roles_openRaiser_stable _ _ _ h,
              fun x h => preflop_roles_threeBettor_stable _ _ _ h,
              fun x h => preflop_roles_fourBettor_stable _ _ _ h,
              fun h => preflop_roles_roleInv _ _ _ h, fun p h => ?_⟩
      rcases preflop_roles_fourbetThis_new _ _ _ h with h' | ⟨hp, ho, ht, hf⟩
      · exact Or.inl h'
      · exact Or.inr ⟨hp, ho, ht, hf, hst⟩
    · constructor
      · intro x h; simp [h]
      · constructor
        · intro x h; simp [h]
        · constructor
          · intro x h; simp [h]
          · constructor
            · intro h
              unfold RoleInv at h ⊢
              simpa using h
            · intro p h
              exact Or.inl (by simpa using h)

lemma step_raise_roles :
    (∀ x, s.openRaiser = some x → (step_raise g s name e).2.openRaiser = some x) ∧
    (∀ x, s.threeBettor = some x → (step_raise g s name e).2.threeBettor = some x) ∧
    (∀ x, s.fourBettor = some x → (step_raise g s name e).2.fourBettor = some x) ∧
    (RoleInv s → RoleInv (step_raise g s name e).2) ∧
    (∀ p, (step_raise g s name e).2.fourbetThis p = true →
        s.fourbetThis p = true ∨
          (p = name ∧ s.openRaiser = some name ∧ s.threeBettor ≠ none ∧ s.fourBettor = none ∧
            s.street = .preflop)) := by
  unfold step_raise
  dsimp only
  split
  · exact ⟨fun x h => h, fun x h => h, fun x h => h, fun h => h, fun p h => Or.inl h⟩
  · split_ifs with hst hcr
    · refine ⟨fun x h => preflop_roles_openRaiser_stable _ _ _ h,
              fun x h => preflop_roles_threeBettor_stable _ _ _ h,
              fun x h => preflop_roles_fourBettor_stable _ _ _ h,
              fun h => preflop_roles_roleInv _ _ _ h, fun p h => ?_⟩
      rcases preflop_roles_fourbetThis_new _ _ _ h with h' | ⟨hp, ho, ht, hf⟩
      · exact Or.inl h'
      · exact Or.inr ⟨hp, ho, ht, hf, hst⟩
    · refine ⟨fun x h => by simp [h], fun x h => by simp [h], fun x h => by simp [h],
        fun h => ?_, fun p h => Or.inl (by simpa using h)⟩
      unfold RoleInv at h ⊢
      simpa using h
    · refine ⟨fun x h => by simp [h], fun x h => by simp [h], fun x h => by simp [h],
        fun h => ?_, fun p h => Or.inl (by simpa using h)⟩
      unfold RoleInv at h ⊢
      simpa using h

lemma process_named_roles :
    (∀ x, s.openRaiser = some x → (process_named g s name e).2.openRaiser = some x) ∧
    (∀ x, s.threeBettor = some x → (process_named g s name e).2.threeBettor = some x) ∧
    (∀ x, s.fourBettor = some x → (process_named g s name e).2.fourBettor = some x) ∧
    (RoleInv s → RoleInv (process_named g s name e).2) ∧
    (∀ p, (process_named g s name e).2.fourbetThis p = true →
        s.fourbetThis p = true ∨
          (p = name ∧ s.openRaiser = some name ∧ s.threeBettor ≠ none ∧ s.fourBettor = none ∧
            s.street = .preflop)) := by
  unfold process_named
  split_ifs with h1 h2 h3 h4 h5 h6 h7
  · refine ⟨fun x h => by simp [h], fun x h => by simp [h], fun x h => by simp [h],
      fun h => ?_, fun p h => Or.inl (by simpa using h)⟩
    unfold RoleInv at h ⊢
    simpa using h
  · refine ⟨fun x h => by simp [h], fun x h => by simp [h], fun x h => by simp [h],
      fun h => ?_, fun p h => Or.inl (by simpa using h)⟩
    unfold RoleInv at h ⊢
    simpa using h
  · refine ⟨fun x h => by simp [h], fun x h => by simp [h], fun x h => by simp [h],
      fun h => ?_, fun p h => Or.inl (by simpa using h)⟩
    unfold RoleInv at h ⊢
    simpa using h
  · refine ⟨fun x h => by simp [h], fun x h => by simp [h], fun x h => by simp [h],
      fun h => ?_, fun p h => Or.inl (by simpa using h)⟩
    unfold RoleInv at h ⊢
    simpa using h
  · exact step_bet_roles g s name e
  · exact step_raise_roles g s name e
  · refine ⟨fun x h => by simp [h], fun x h => by simp [h], fun x h => by simp [h],
      fun h => ?_, fun p h => Or.inl (by simpa using h)⟩
    unfold RoleInv at h ⊢
    simpa using h
  · exact ⟨fun x h => h, fun x h => h, fun x h => h, fun h => h, fun p h => Or.inl h⟩

lemma presence_fourbetOpp_mono {p : String} (h : s.fourbetOppThis p = true) :
    (presence_update s name).fourbetOppThis p = true := by
  unfold presence_update
  dsimp only
  split_ifs
  · by_cases hp : p = name
    · subst hp
      simp [updB]
    · simp [updB, hp, h]
  · exact h

lemma presence_sets_fourbetOpp (ho : s.openRaiser = some name) (ht : s.threeBettor ≠ none)
    (hf : s.fourBettor = none) : (presence_update s name).fourbetOppThis name = true := by
  unfold presence_update
  dsimp only
  rw [if_pos]
  · simp [updB]
  · simp [ho, hf, Option.isNone_iff_eq_none, Option.isSome_iff_ne_none, ht]

@[simp] lemma process_named_fields :
    (process_named g s name e).1.handsPlayed = g.handsPlayed ∧
    (process_named g s name e).1.handsPlayedKeys = g.handsPlayedKeys ∧
    (process_named g s name e).1.sawFlopHands = g.sawFlopHands ∧
    (process_named g s name e).1.sawTurnHands = g.sawTurnHands ∧
    (process_named g s name e).1.sawRiverHands = g.sawRiverHands ∧
    (process_named g s name e).1.fourbetHands = g.fourbetHands ∧
    (process_named g s name e).1.fourbetOpp = g.fourbetOpp ∧
    (process_named g s name e).2.fourbetOppThis = s.fourbetOppThis ∧
    (process_named g s name e).2.sawPreflop = s.sawPreflop ∧
    (process_named g s name e).2.sawPreflopKeys = s.sawPreflopKeys ∧
    (process_named g s name e).2.street = s.street ∧
    (process_named g s name e).2.sawFlopThis = s.sawFlopThis ∧
    (process_named g s name e).2.sawTurnThis = s.sawTurnThis ∧
    (process_named g s name e).2.sawRiverThis = s.sawRiverThis := by
  unfold process_named
  split_ifs <;> simp

lemma process_named_active {n : String}
    (h : (process_named g s name e).2.active n = true) : s.active n = true := by
  unfold process_named at h
  split_ifs at h <;>
    first
      | exact h
      | (simp only [step_blind_fields, step_check_fields, step_call_fields,
          step_collected_fields, step_bet_fields, step_raise_fields] at h; exact h)
      | (simp only [step_fold_fields] at h
         by_cases hn : n = name
         · simp [updB, hn] at h
         · simpa [updB, hn] using h)

section EntryLemmas

variable (g : Agg) (s : HandState) (e : String)

lemma process_entry_roles :
    (∀ x, s.openRaiser = some x → (process_entry g s e).2.openRaiser = some x) ∧
    (∀ x, s.threeBettor = some x → (process_entry g s e).2.threeBettor = some x) ∧
    (∀ x, s.fourBettor = some x → (process_entry g s e).2.fourBettor = some x) ∧
    (RoleInv s → RoleInv (process_entry g s e).2) := by
  unfold process_entry
  dsimp only
  split_ifs with h1 h2 h3 h4 hst
  · refine ⟨fun x h => by simp [h], fun x h => by simp [h], fun x h => by simp [h], fun h => ?_⟩
    unfold RoleInv at h ⊢
    simpa using h
  · refine ⟨fun x h => by simp [h], fun x h => by simp [h], fun x h => by simp [h], fun h => ?_⟩
    unfold RoleInv at h ⊢
    simpa using h
  · refine ⟨fun x h => by simp [h], fun x h => by simp [h], fun x h => by simp [h], fun h => ?_⟩
    unfold RoleInv at h ⊢
    simpa using h
  · refine ⟨fun x h => by simp [h], fun x h => by simp [h], fun x h => by simp [h], fun h => ?_⟩
    unfold RoleInv at h ⊢
    simpa using h
  · split
    · refine ⟨fun x h => h, fun x h => h, fun x h => h, fun h => h⟩
    · rename_i name _
      obtain ⟨r1, r2, r3, r4, _⟩ :=
        process_named_roles g (presence_update { s with showdown := s.showdown || has_shows e } name) name e
      exact ⟨fun x h => r1 x (by simpa using h), fun x h => r2 x (by simpa using h),
             fun x h => r3 x (by simpa using h), fun h => r4 (by
               unfold RoleInv at h ⊢
               simpa using h)⟩
  · split
    · refine ⟨fun x h => h, fun x h => h, fun x h => h, fun h => h⟩
    · rename_i name _
      obtain ⟨r1, r2, r3, r4, _⟩ :=
        process_named_roles g { s with showdown := s.showdown || has_shows e } name e
      exact ⟨fun x h => r1 x h, fun x h => r2 x h, fun x h => r3 x h, fun h => r4 h⟩

lemma process_entry_inv4o
    (h : ∀ p, s.fourbetThis p = true → s.openRaiser = some p) :
    ∀ p, (process_entry g s e).2.fourbetThis p = true →
      (process_entry g s e).2.openRaiser = some p := by
  unfold process_entry
  dsimp only
  split_ifs with h1 h2 h3 h4 hst
  · intro p hp
    simp only [step_flop_marker_fields] at hp ⊢
    exact h p hp
  · intro p hp
    simp only [step_turn_marker_fields] at hp ⊢
    exact h p hp
  · intro p hp
    simp only [step_river_marker_fields] at hp ⊢
    exact h p hp
  · intro p hp
    simp only [step_uncalled_fields] at hp ⊢
    exact h p hp
  · split
    · exact fun p hp => h p hp
    · rename_i name _
      intro p hp
      obtain ⟨r1, _, _, _, r5⟩ :=
        process_named_roles g
          (presence_update { s with showdown := s.showdown || has_shows e } name) name e
      rcases r5 p hp with hold | ⟨rfl, ho, _, _, _⟩
      · have hop := h p (by simpa using hold)
        exact r1 p (by simpa using hop)
      · exact r1 p (by simpa using ho)
  · split
    · exact fun p hp => h p hp
    · rename_i name _
      intro p hp
      obtain ⟨r1, _, _, _, r5⟩ :=
        process_named_roles g { s with showdown := s.showdown || has_shows e } name e
      rcases r5 p hp with hold | ⟨rfl, ho, ht, hf, hstp⟩
      · exact r1 p (h p hold)
      · exact absurd (by simpa using hstp) hst

lemma process_entry_inv46
    (h : ∀ p, s.fourbetThis p = true → s.fourbetOppThis p = true) :
    ∀ p, (process_entry g s e).2.fourbetThis p = true →
      (process_entry g s e).2.fourbetOppThis p = true := by
  unfold process_entry
  dsimp only
  split_ifs with h1 h2 h3 h4 hst
  · intro p hp
    simp only [step_flop_marker_fields] at hp ⊢
    exact h p hp
  · intro p hp
    simp only [step_turn_marker_fields] at hp ⊢
    exact h p hp
  · intro p hp
    simp only [step_river_marker_fields] at hp ⊢
    exact h p hp
  · intro p hp
    simp only [step_uncalled_fields] at hp ⊢
    exact h p hp
  · split
    · exact fun p hp => h p hp
    · rename_i name _
      intro p hp
      obtain ⟨_, _, _, _, r5⟩ :=
        process_named_roles g
          (presence_update { s with showdown := s.showdown || has_shows e } name) name e
      rcases r5 p hp with hold | ⟨rfl, ho, ht, hf, _⟩
      · have h0 : s.fourbetOppThis p = true := h p (by simpa using hold)
        have h1' := presence_fourbetOpp_mono
          { s with showdown := s.showdown || has_shows e } name (p := p) (by simpa using h0)
        simp only [process_named_fields]
        exact h1'
      · have hset := presence_sets_fourbetOpp
          { s with showdown := s.showdown || has_shows e } p
          (by simpa using ho) (by simpa using ht) (by simpa using hf)
        simp only [process_named_fields]
        exact hset
  · split
    · exact fun p hp => h p hp
    · rename_i name _
      intro p hp
      obtain ⟨_, _, _, _, r5⟩ :=
        process_named_roles g { s with showdown := s.showdown || has_shows e } name e
      rcases r5 p hp with hold | ⟨rfl, ho, ht, hf, hstp⟩
      · simp only [process_named_fields]
        exact h p hold
      · exact absurd (by simpa using hstp) hst

lemma process_entry_agg :
    (process_entry g s e).1.handsPlayed = g.handsPlayed ∧
    (process_entry g s e).1.handsPlayedKeys = g.handsPlayedKeys ∧
    (process_entry g s e).1.sawFlopHands = g.sawFlopHands ∧
    (process_entry g s e).1.sawTurnHands = g.sawTurnHands ∧
    (process_entry g s e).1.sawRiverHands = g.sawRiverHands ∧
    (process_entry g s e).1.fourbetHands = g.fourbetHands ∧
    (process_entry g s e).1.fourbetOpp = g.fourbetOpp := by
  unfold process_entry
  dsimp only
  split_ifs <;>
    first
      | exact ⟨rfl, rfl, rfl, rfl, rfl, rfl, rfl⟩
      | simp
      | (split
         · exact ⟨rfl, rfl, rfl, rfl, rfl, rfl, rfl⟩
         · simp)

lemma process_named_subInv {g : Agg} {s : HandState} {name e : String} (h : SubInv s) :
    SubInv (process_named g s name e).2 := by
  obtain ⟨ha, hf, ht, hr⟩ := h
  refine ⟨fun n hn => ?_, fun n hn => ?_, fun n hn => ?_, fun n hn => ?_⟩ <;>
    simp only [process_named_fields] at *
  · exact ha n (process_named_active g s name e hn)
  · exact hf n hn
  · exact ht n hn
  · exact hr n hn

lemma presence_subInv {s : HandState} {name : String} (h : SubInv s) :
    SubInv (presence_update s name) := by
  obtain ⟨ha, hf, ht, hr⟩ := h
  refine ⟨fun n hn => ?_, fun n hn => ?_, fun n hn => ?_, fun n hn => ?_⟩ <;>
    simp only [presence_update_fields] at *
  · by_cases hp : n = name
    · simp [updB, hp]
    · simp only [updB, hp, if_false] at hn
      simp [updB, hp, ha n hn]
  · simp [updB, hf n hn]
  · simp [updB, ht n hn]
  · simp [updB, hr n hn]

lemma process_entry_subInv (h : SubInv s) : SubInv (process_entry g s e).2 := by
  obtain ⟨ha, hf, ht, hr⟩ := h
  unfold process_entry
  dsimp only
  split_ifs with h1 h2 h3 h4 hst
  · refine ⟨fun n hn => ?_, fun n hn => ?_, fun n hn => ?_, fun n hn => ?_⟩ <;>
      simp only [step_flop_marker_fields] at *
    · exact ha n hn
    · rcases Bool.or_eq_true _ _ |>.mp hn with hn' | hn'
      · exact hf n hn'
      · exact ha n hn'
    · exact ht n hn
    · exact hr n hn
  · refine ⟨fun n hn => ?_, fun n hn => ?_, fun n hn => ?_, fun n hn => ?_⟩ <;>
      simp only [step_turn_marker_fields] at *
    · exact ha n hn
    · exact hf n hn
    · rcases Bool.or_eq_true _ _ |>.mp hn with hn' | hn'
      · exact ht n hn'
      · exact ha n hn'
    · exact hr n hn
  · refine ⟨fun n hn => ?_, fun n hn => ?_, fun n hn => ?_, fun n hn => ?_⟩ <;>
      simp only [step_river_marker_fields] at *
    · exact ha n hn
    · exact hf n hn
    · exact ht n hn
    · rcases Bool.or_eq_true _ _ |>.mp hn with hn' | hn'
      · exact hr n hn'
      · exact ha n hn'
  · refine ⟨fun n hn => ?_, fun n hn => ?_, fun n hn => ?_, fun n hn => ?_⟩ <;>
      simp only [step_uncalled_fields] at *
    · exact ha n hn
    · exact hf n hn
    · exact ht n hn
    · exact hr n hn
  · split
    · exact ⟨ha, hf, ht, hr⟩
    · rename_i name _
      exact process_named_subInv (presence_subInv ⟨ha, hf, ht, hr⟩)
  · split
    · exact ⟨ha, hf, ht, hr⟩
    · rename_i name _
      exact process_named_subInv ⟨ha, hf, ht, hr⟩

end EntryLemmas

section FoldLemmas

lemma process_entries_eq (g : Agg) (hand : List String) :
    process_entries g hand = hand.foldl entries_step (g, init_hand_state) := rfl

lemma foldl_subInv : ∀ (hand : List String) (p : Agg × HandState),
    SubInv p.2 → SubInv (hand.foldl entries_step p).2
  | [], _, h => h
  | e :: es, p, h =>
      foldl_subInv es (entries_step p e) (process_entry_subInv p.1 p.2 e h)

lemma foldl_inv4o : ∀ (hand : List String) (p : Agg × HandState),
    (∀ q, p.2.fourbetThis q = true → p.2.openRaiser = some q) →
    ∀ q, (hand.foldl entries_step p).2.fourbetThis q = true →
      (hand.foldl entries_step p).2.openRaiser = some q
  | [], _, h => h
  | e :: es, p, h =>
      foldl_inv4o es (entries_step p e) (process_entry_inv4o p.1 p.2 e h)

lemma foldl_inv46 : ∀ (hand : List String) (p : Agg × HandState),
    (∀ q, p.2.fourbetThis q = true → p.2.fourbetOppThis q = true) →
    ∀ q, (hand.foldl entries_step p).2.fourbetThis q = true →
      (hand.foldl entries_step p).2.fourbetOppThis q = true
  | [], _, h => h
  | e :: es, p, h =>
      foldl_inv46 es (entries_step p e) (process_entry_inv46 p.1 p.2 e h)

lemma foldl_agg_frame : ∀ (hand : List String) (p : Agg × HandState),
    (hand.foldl entries_step p).1.handsPlayed = p.1.handsPlayed ∧
    (hand.foldl entries_step p).1.handsPlayedKeys = p.1.handsPlayedKeys ∧
    (hand.foldl entries_step p).1.sawFlopHands = p.1.sawFlopHands ∧
    (hand.foldl entries_step p).1.sawTurnHands = p.1.sawTurnHands ∧
    (hand.foldl entries_step p).1.sawRiverHands = p.1.sawRiverHands ∧
    (hand.foldl entries_step p).1.fourbetHands = p.1.fourbetHands ∧
    (hand.foldl entries_step p).1.fourbetOpp = p.1.fourbetOpp
  | [], _ => ⟨rfl, rfl, rfl, rfl, rfl, rfl, rfl⟩
  | e :: es, p => by
      have IH := foldl_agg_frame es (entries_step p e)
      have E := process_entry_agg p.1 p.2 e
      exact ⟨IH.1.trans E.1, IH.2.1.trans E.2.1, IH.2.2.1.trans E.2.2.1,
             IH.2.2.2.1.trans E.2.2.2.1, IH.2.2.2.2.1.trans E.2.2.2.2.1,
             IH.2.2.2.2.2.1.trans E.2.2.2.2.2.1, IH.2.2.2.2.2.2.trans E.2.2.2.2.2.2⟩

end FoldLemmas

section PostLemmas

variable (g : Agg) (s : HandState) (hand : List String) (n : String)

lemma mem_foldl_addKey {x : String} :
    ∀ (l acc : List String), x ∈ l.foldl addKey acc ↔ x ∈ acc ∨ x ∈ l
  | [], acc => by simp
  | k :: t, acc => by
      rw [List.foldl_cons, mem_foldl_addKey t (addKey acc k), mem_addKey]
      simp only [List.mem_cons]
      tauto

lemma mem_all_names :
    n ∈ all_names s ↔ n ∈ s.sawPreflopKeys ∨ n ∈ s.investedKeys ∨ n ∈ s.collectedKeys := by
  unfold all_names
  rw [mem_foldl_addKey]
  simp [or_assoc]

@[simp] lemma post_flop_opp_fields (b : Bool) :
    (post_flop_opp g s b).handsPlayed = g.handsPlayed ∧
    (post_flop_opp g s b).handsPlayedKeys = g.handsPlayedKeys ∧
    (post_flop_opp g s b).sawFlopHands = g.sawFlopHands ∧
    (post_flop_opp g s b).sawTurnHands = g.sawTurnHands ∧
    (post_flop_opp g s b).sawRiverHands = g.sawRiverHands ∧
    (post_flop_opp g s b).fourbetHands = g.fourbetHands ∧
    (post_flop_opp g s b).fourbetOpp = g.fourbetOpp ∧
    (post_flop_opp g s b).wwsfHands = g.wwsfHands := by
  unfold post_flop_opp
  split <;> first | (split_ifs <;> simp) | simp

@[simp] lemma post_flop_faced_fields :
    (post_flop_faced g s).handsPlayed = g.handsPlayed ∧
    (post_flop_faced g s).handsPlayedKeys = g.handsPlayedKeys ∧
    (post_flop_faced g s).sawFlopHands = g.sawFlopHands ∧
    (post_flop_faced g s).sawTurnHands = g.sawTurnHands ∧
    (post_flop_faced g s).sawRiverHands = g.sawRiverHands ∧
    (post_flop_faced g s).fourbetHands = g.fourbetHands ∧
    (post_flop_faced g s).fourbetOpp = g.fourbetOpp ∧
    (post_flop_faced g s).wwsfHands = g.wwsfHands := by
  unfold post_flop_faced
  split_ifs <;> simp

@[simp] lemma post_turn_opp_fields (b : Bool) :
    (post_turn_opp g s b).handsPlayed = g.handsPlayed ∧
    (post_turn_opp g s b).handsPlayedKeys = g.handsPlayedKeys ∧
    (post_turn_opp g s b).sawFlopHands = g.sawFlopHands ∧
    (post_turn_opp g s b).sawTurnHands = g.sawTurnHands ∧
    (post_turn_opp g s b).sawRiverHands = g.sawRiverHands ∧
    (post_turn_opp g s b).fourbetHands = g.fourbetHands ∧
    (post_turn_opp g s b).fourbetOpp = g.fourbetOpp ∧
    (post_turn_opp g s b).wwsfHands = g.wwsfHands := by
  unfold post_turn_opp
  split <;> first | (split_ifs <;> simp) | simp

@[simp] lemma post_turn_faced_fields :
    (post_turn_faced g s).handsPlayed = g.handsPlayed ∧
    (post_turn_faced g s).handsPlayedKeys = g.handsPlayedKeys ∧
    (post_turn_faced g s).sawFlopHands = g.sawFlopHands ∧
    (post_turn_faced g s).sawTurnHands = g.sawTurnHands ∧
    (post_turn_faced g s).sawRiverHands = g.sawRiverHands ∧
    (post_turn_faced g s).fourbetHands = g.fourbetHands ∧
    (post_turn_faced g s).fourbetOpp = g.fourbetOpp ∧
    (post_turn_faced g s).wwsfHands = g.wwsfHands := by
  unfold post_turn_faced
  split_ifs <;> simp

@[simp] lemma post_river_opp_fields (b : Bool) :
    (post_river_opp g s b).handsPlayed = g.handsPlayed ∧
    (post_river_opp g s b).handsPlayedKeys = g.handsPlayedKeys ∧
    (post_river_opp g s b).sawFlopHands = g.sawFlopHands ∧
    (post_river_opp g s b).sawTurnHands = g.sawTurnHands ∧
    (post_river_opp g s b).sawRiverHands = g.sawRiverHands ∧
    (post_river_opp g s b).fourbetHands = g.fourbetHands ∧
    (post_river_opp g s b).fourbetOpp = g.fourbetOpp ∧
    (post_river_opp g s b).wwsfHands = g.wwsfHands := by
  unfold post_river_opp
  split <;> first | (split_ifs <;> simp) | simp

@[simp] lemma post_river_faced_fields :
    (post_river_faced g s).handsPlayed = g.handsPlayed ∧
    (post_river_faced g s).handsPlayedKeys = g.handsPlayedKeys ∧
    (post_river_faced g s).sawFlopHands = g.sawFlopHands ∧
    (post_river_faced g s).sawTurnHands = g.sawTurnHands ∧
    (post_river_faced g s).sawRiverHands = g.sawRiverHands ∧
    (post_river_faced g s).fourbetHands = g.fourbetHands ∧
    (post_river_faced g s).fourbetOpp = g.fourbetOpp ∧
    (post_river_faced g s).wwsfHands = g.wwsfHands := by
  unfold post_river_faced
  split_ifs <;> simp

lemma post_tally_handsPlayed :
    (post_tally g s hand).handsPlayed n =
      g.handsPlayed n + (if n ∈ all_names s ∧ s.sawPreflop n = true then 1 else 0) := by
  unfold post_tally
  dsimp only
  by_cases h1 : n ∈ all_names s <;> by_cases h2 : s.sawPreflop n = true <;> simp [h1, h2]

lemma post_tally_sawFlopHands :
    (post_tally g s hand).sawFlopHands n =
      g.sawFlopHands n + (if n ∈ all_names s ∧ s.sawFlopThis n = true then 1 else 0) := by
  unfold post_tally
  dsimp only
  by_cases h1 : n ∈ all_names s <;> by_cases h2 : s.sawFlopThis n = true <;> simp [h1, h2]

lemma post_tally_sawTurnHands :
    (post_tally g s hand).sawTurnHands n =
      g.sawTurnHands n + (if n ∈ all_names s ∧ s.sawTurnThis n = true then 1 else 0) := by
  unfold post_tally
  dsimp only
  by_cases h1 : n ∈ all_names s <;> by_cases h2 : s.sawTurnThis n = true <;> simp [h1, h2]

lemma post_tally_sawRiverHands :
    (post_tally g s hand).sawRiverHands n =
      g.sawRiverHands n + (if n ∈ all_names s ∧ s.sawRiverThis n = true then 1 else 0) := by
  unfold post_tally
  dsimp only
  by_cases h1 : n ∈ all_names s <;> by_cases h2 : s.sawRiverThis n = true <;> simp [h1, h2]

lemma post_tally_fourbetHands :
    (post_tally g s hand).fourbetHands n =
      g.fourbetHands n +
        (if n ∈ all_names s ∧ s.sawPreflop n = true ∧ s.fourbetThis n = true then 1 else 0) := by
  unfold post_tally
  dsimp only
  by_cases h1 : n ∈ all_names s <;> by_cases h2 : s.sawPreflop n = true <;>
    by_cases h3 : s.fourbetThis n = true <;> simp [h1, h2, h3]

lemma post_tally_fourbetOpp :
    (post_tally g s hand).fourbetOpp n =
      g.fourbetOpp n +
        (if n ∈ all_names s ∧ s.sawPreflop n = true ∧ s.fourbetOppThis n = true
         then 1 else 0) := by
  unfold post_tally
  dsimp only
  by_cases h1 : n ∈ all_names s <;> by_cases h2 : s.sawPreflop n = true <;>
    by_cases h3 : s.fourbetOppThis n = true <;> simp [h1, h2, h3]

lemma post_tally_wwsfHands :
    (post_tally g s hand).wwsfHands n =
      g.wwsfHands n +
        (if n ∈ all_names s ∧ 0 < s.collected n ∧ s.sawFlopThis n = true then 1 else 0) := by
  unfold post_tally
  dsimp only
  by_cases h1 : n ∈ all_names s <;> by_cases h2 : 0 < s.collected n <;>
    by_cases h3 : s.sawFlopThis n = true <;> simp [h1, h2, h3]

lemma post_tally_keys_mem :
    n ∈ (post_tally g s hand).handsPlayedKeys ↔
      n ∈ g.handsPlayedKeys ∨ (n ∈ all_names s ∧ s.sawPreflop n = true) := by
  unfold post_tally
  dsimp only
  rw [mem_foldl_addKey, List.mem_filter]

lemma post_process_handsPlayed :
    (post_process g s hand).handsPlayed n =
      g.handsPlayed n + (if n ∈ all_names s ∧ s.sawPreflop n = true then 1 else 0) := by
  unfold post_process
  simp only [post_river_faced_fields, post_river_opp_fields, post_turn_faced_fields,
    post_turn_opp_fields, post_flop_faced_fields, post_flop_opp_fields]
  exact post_tally_handsPlayed g s hand n

lemma post_process_sawFlopHands :
    (post_process g s hand).sawFlopHands n =
      g.sawFlopHands n + (if n ∈ all_names s ∧ s.sawFlopThis n = true then 1 else 0) := by
  unfold post_process
  simp only [post_river_faced_fields, post_river_opp_fields, post_turn_faced_fields,
    post_turn_opp_fields, post_flop_faced_fields, post_flop_opp_fields]
  exact post_tally_sawFlopHands g s hand n

lemma post_process_sawTurnHands :
    (post_process g s hand).sawTurnHands n =
      g.sawTurnHands n + (if n ∈ all_names s ∧ s.sawTurnThis n = true then 1 else 0) := by
  unfold post_process
  simp only [post_river_faced_fields, post_river_opp_fields, post_turn_faced_fields,
    post_turn_opp_fields, post_flop_faced_fields, post_flop_opp_fields]
  exact post_tally_sawTurnHands g s hand n

lemma post_process_sawRiverHands :
    (post_process g s hand).sawRiverHands n =
      g.sawRiverHands n + (if n ∈ all_names s ∧ s.sawRiverThis n = true then 1 else 0) := by
  unfold post_process
  simp only [post_river_faced_fields, post_river_opp_fields, post_turn_faced_fields,
    post_turn_opp_fields, post_flop_faced_fields, post_flop_opp_fields]
  exact post_tally_sawRiverHands g s hand n

lemma post_process_fourbetHands :
    (post_process g s hand).fourbetHands n =
      g.fourbetHands n +
        (if n ∈ all_names s ∧ s.sawPreflop n = true ∧ s.fourbetThis n = true then 1 else 0) := by
  unfold post_process
  simp only [post_river_faced_fields, post_river_opp_fields, post_turn_faced_fields,
    post_turn_opp_fields, post_flop_faced_fields, post_flop_opp_fields]
  exact post_tally_fourbetHands g s hand n

lemma post_process_fourbetOpp :
    (post_process g s hand).fourbetOpp n =
      g.fourbetOpp n +
        (if n ∈ all_names s ∧ s.sawPreflop n = true ∧ s.fourbetOppThis n = true
         then 1 else 0) := by
  unfold post_process
  simp only [post_river_faced_fields, post_river_opp_fields, post_turn_faced_fields,
    post_turn_opp_fields, post_flop_faced_fields, post_flop_opp_fields]
  exact post_tally_fourbetOpp g s hand n

lemma post_process_wwsfHands :
    (post_process g s hand).wwsfHands n =
      g.wwsfHands n +
        (if n ∈ all_names s ∧ 0 < s.collected n ∧ s.sawFlopThis n = true then 1 else 0) := by
  unfold post_process
  simp only [post_river_faced_fields, post_river_opp_fields, post_turn_faced_fields,
    post_turn_opp_fields, post_flop_faced_fields, post_flop_opp_fields]
  exact post_tally_wwsfHands g s hand n

lemma post_process_keys_mem :
    n ∈ (post_process g s hand).handsPlayedKeys ↔
      n ∈ g.handsPlayedKeys ∨ (n ∈ all_names s ∧ s.sawPreflop n = true) := by
  unfold post_process
  simp only [post_river_faced_fields, post_river_opp_fields, post_turn_faced_fields,
    post_turn_opp_fields, post_flop_faced_fields, post_flop_opp_fields]
  exact post_tally_keys_mem g s hand n

end PostLemmas

section PresenceTracking

variable (g : Agg) (s : HandState) (e : String)

lemma process_entry_street :
    (process_entry g s e).2.street =
      (if is_flop_marker e then Street.flop
       else if is_turn_marker e then Street.turn
       else if is_river_marker e then Street.river
       else s.street) := by
  unfold process_entry
  dsimp only
  split_ifs with h1 h2 h3 h4 hst
  · simp
  · simp
  · simp
  · simp
  · split
    · rfl
    · simp only [process_named_fields, presence_update_fields]
  · split
    · rfl
    · simp only [process_named_fields]

lemma process_entry_sawPreflop (n : String) :
    (process_entry g s e).2.sawPreflop n =
      (s.sawPreflop n || (decide (s.street = Street.preflop) && reaches_presence e n)) := by
  unfold process_entry reaches_presence
  dsimp only
  split_ifs with h1 h2 h3 h4 hst
  · simp [is_street_marker, h1]
  · simp [is_street_marker, h2]
  · simp [is_street_marker, h3]
  · simp [is_street_marker, h1, h2, h3, h4]
  · split
    · rename_i hnone
      simp [is_street_marker, h1, h2, h3, h4, hst, hnone]
    · rename_i name heq
      by_cases hn : n = name
      · subst hn
        simp [process_named_fields, presence_update_fields, updB, is_street_marker,
          h1, h2, h3, h4, hst, heq]
      · simp [process_named_fields, presence_update_fields, updB, hn, is_street_marker,
          h1, h2, h3, h4, hst, heq, beq_iff_eq, Ne.symm hn]
  · split
    · rename_i hnone
      simp [hst]
    · rename_i name heq
      simp [process_named_fields, hst]

lemma process_entry_keysInv (h : KeysInv s) : KeysInv (process_entry g s e).2 := by
  unfold process_entry
  dsimp only
  split_ifs with h1 h2 h3 h4 hst
  · intro n hn
    simp only [step_flop_marker_fields] at hn ⊢
    exact h n hn
  · intro n hn
    simp only [step_turn_marker_fields] at hn ⊢
    exact h n hn
  · intro n hn
    simp only [step_river_marker_fields] at hn ⊢
    exact h n hn
  · intro n hn
    simp only [step_uncalled_fields] at hn ⊢
    exact h n hn
  · split
    · exact fun n hn => h n hn
    · rename_i name _
      intro n hn
      simp only [process_named_fields, presence_update_fields] at hn ⊢
      by_cases hname : n = name
      · rw [mem_addKey]
        exact Or.inr hname
      · simp only [updB, hname, if_false] at hn
        rw [mem_addKey]
        exact Or.inl (h n hn)
  · split
    · exact fun n hn => h n hn
    · rename_i name _
      intro n hn
      simp only [process_named_fields] at hn ⊢
      exact h n hn

lemma foldl_keysInv : ∀ (hand : List String) (p : Agg × HandState),
    KeysInv p.2 → KeysInv (hand.foldl entries_step p).2
  | [], _, h => h
  | e :: es, p, h =>
      foldl_keysInv es (entries_step p e) (process_entry_keysInv p.1 p.2 e h)

lemma process_entries_sawPreflop :
    ∀ (es : List String) (p : Agg × HandState) (n : String),
      (es.foldl entries_step p).2.sawPreflop n =
        (p.2.sawPreflop n || (decide (p.2.street = Street.preflop) && appears_preflop n es))
  | [], p, n => by simp [appears_preflop]
  | e :: es, p, n => by
      rw [List.foldl_cons, process_entries_sawPreflop es (entries_step p e) n]
      show ((process_entry p.1 p.2 e).2.sawPreflop n ||
              (decide ((process_entry p.1 p.2 e).2.street = Street.preflop) &&
                appears_preflop n es)) = _
      rw [process_entry_sawPreflop, process_entry_street]
      by_cases hf : is_flop_marker e = true
      · simp [appears_preflop, reaches_presence, is_street_marker, hf]
      · by_cases ht : is_turn_marker e = true
        · simp [appears_preflop, reaches_presence, is_street_marker, hf, ht]
        · by_cases hr : is_river_marker e = true
          · simp [appears_preflop, reaches_presence, is_street_marker, hf, ht, hr]
          · simp [appears_preflop, reaches_presence, is_street_marker, hf, ht, hr,
              Bool.and_or_distrib_left, Bool.or_assoc]

lemma process_hand_keys_mem (g : Agg) (hand : List String) (n : String) :
    n ∈ (process_hand g hand).handsPlayedKeys ↔
      n ∈ g.handsPlayedKeys ∨ appears_preflop n hand = true := by
  unfold process_hand
  dsimp only
  rw [post_process_keys_mem]
  have hfr := foldl_agg_frame hand (g, init_hand_state)
  rw [process_entries_eq, hfr.2.1]
  rw [← process_entries_eq]
  have hsaw : (process_entries g hand).2.sawPreflop n = appears_preflop n hand := by
    rw [process_entries_eq, process_entries_sawPreflop]
    simp [init_hand_state]
  have hki : KeysInv (process_entries g hand).2 := by
    rw [process_entries_eq]
    refine foldl_keysInv hand (g, init_hand_state) ?_
    intro q hq
    simp [init_hand_state] at hq
  constructor
  · rintro (h | ⟨hmem, hsp⟩)
    · exact Or.inl h
    · right
      rw [← hsaw]
      exact hsp
  · rintro (h | hap)
    · exact Or.inl h
    · have hsp : (process_entries g hand).2.sawPreflop n = true := by rw [hsaw]; exact hap
      exact Or.inr ⟨(mem_all_names _ _).mpr (Or.inl (hki n hsp)), hsp⟩

lemma foldl_keys_mem :
    ∀ (hands : List (List String)) (g : Agg) (n : String),
      n ∈ (hands.foldl process_hand g).handsPlayedKeys ↔
        n ∈ g.handsPlayedKeys ∨ ∃ h ∈ hands, appears_preflop n h = true
  | [], g, n => by simp
  | hd :: tl, g, n => by
      rw [List.foldl_cons, foldl_keys_mem tl (process_hand g hd) n, process_hand_keys_mem]
      simp only [List.mem_cons]
      constructor
      · rintro ((h | hap) | ⟨x, hx, hap⟩)
        · exact Or.inl h
        · exact Or.inr ⟨hd, Or.inl rfl, hap⟩
        · exact Or.inr ⟨x, Or.inr hx, hap⟩
      · rintro (h | ⟨x, hx | hx, hap⟩)
        · exact Or.inl (Or.inl h)
        · subst hx
          exact Or.inl (Or.inr hap)
        · exact Or.inr ⟨x, hx, hap⟩

lemma process_hand_posInv (g : Agg) (hand : List String)
    (h : ∀ n, n ∈ g.handsPlayedKeys → g.handsPlayed n ≠ 0) :
    ∀ n, n ∈ (process_hand g hand).handsPlayedKeys → (process_hand g hand).handsPlayed n ≠ 0 := by
  intro n hn
  unfold process_hand at hn ⊢
  dsimp only at hn ⊢
  rw [post_process_keys_mem] at hn
  rw [post_process_handsPlayed]
  have hfr := foldl_agg_frame hand (g, init_hand_state)
  rw [process_entries_eq] at hn ⊢
  rcases hn with hold | ⟨hmem, hsp⟩
  · have h0 : g.handsPlayed n ≠ 0 := h n (by rw [← hfr.2.1]; exact hold)
    rw [hfr.1]
    intro hEq
    exact h0 (Nat.add_eq_zero.mp hEq).1
  · rw [if_pos ⟨hmem, hsp⟩]
    exact Nat.succ_ne_zero _

lemma foldl_posInv :
    ∀ (hands : List (List String)) (g : Agg),
      (∀ n, n ∈ g.handsPlayedKeys → g.handsPlayed n ≠ 0) →
      ∀ n, n ∈ (hands.foldl process_hand g).handsPlayedKeys →
        (hands.foldl process_hand g).handsPlayed n ≠ 0
  | [], _, h => h
  | hd :: tl, g, h => foldl_posInv tl (process_hand g hd) (process_hand_posInv g hd h)

lemma if_le_if {P Q : Prop} [Decidable P] [Decidable Q] (h : P → Q) :
    (if P then 1 else 0) ≤ (if Q then 1 else 0) := by
  split_ifs with hp hq
  · exact le_refl 1
  · exact absurd (h hp) hq
  · exact Nat.zero_le 1
  · exact le_refl 0

lemma process_hand_saw_le (g : Agg) (hand : List String)
    (h : ∀ n, g.sawFlopHands n ≤ g.handsPlayed n ∧ g.sawTurnHands n ≤ g.handsPlayed n ∧
      g.sawRiverHands n ≤ g.handsPlayed n) :
    ∀ n, (process_hand g hand).sawFlopHands n ≤ (process_hand g hand).handsPlayed n ∧
      (process_hand g hand).sawTurnHands n ≤ (process_hand g hand).handsPlayed n ∧
      (process_hand g hand).sawRiverHands n ≤ (process_hand g hand).handsPlayed n := by
  intro n
  unfold process_hand
  dsimp only
  have hsub : SubInv (process_entries g hand).2 := by
    rw [process_entries_eq]
    refine foldl_subInv hand (g, init_hand_state) ⟨?_, ?_, ?_, ?_⟩ <;>
      intro q hq <;> simp [init_hand_state] at hq
  have hfr := foldl_agg_frame hand (g, init_hand_state)
  rw [post_process_sawFlopHands, post_process_sawTurnHands, post_process_sawRiverHands,
    post_process_handsPlayed, process_entries_eq, hfr.1, hfr.2.2.1, hfr.2.2.2.1,
    hfr.2.2.2.2.1]
  rw [process_entries_eq] at hsub
  refine ⟨?_, ?_, ?_⟩
  · exact Nat.add_le_add (h n).1 (if_le_if fun hx => ⟨hx.1, hsub.2.1 n hx.2⟩)
  · exact Nat.add_le_add (h n).2.1 (if_le_if fun hx => ⟨hx.1, hsub.2.2.1 n hx.2⟩)
  · exact Nat.add_le_add (h n).2.2 (if_le_if fun hx => ⟨hx.1, hsub.2.2.2 n hx.2⟩)

lemma foldl_saw_le :
    ∀ (hands : List (List String)) (g : Agg),
      (∀ n, g.sawFlopHands n ≤ g.handsPlayed n ∧ g.sawTurnHands n ≤ g.handsPlayed n ∧
        g.sawRiverHands n ≤ g.handsPlayed n) →
      ∀ n, (hands.foldl process_hand g).sawFlopHands n ≤
          (hands.foldl process_hand g).handsPlayed n ∧
        (hands.foldl process_hand g).sawTurnHands n ≤
          (hands.foldl process_hand g).handsPlayed n ∧
        (hands.foldl process_hand g).sawRiverHands n ≤
          (hands.foldl process_hand g).handsPlayed n
  | [], _, h => h
  | hd :: tl, g, h => foldl_saw_le tl (process_hand g hd) (process_hand_saw_le g hd h)

lemma process_hand_fourbet_le (g : Agg) (hand : List String)
    (h : ∀ n, g.fourbetHands n ≤ g.fourbetOpp n) :
    ∀ n, (process_hand g hand).fourbetHands n ≤ (process_hand g hand).fourbetOpp n := by
  intro n
  unfold process_hand
  dsimp only
  have h46 : ∀ q, (process_entries g hand).2.fourbetThis q = true →
      (process_entries g hand).2.fourbetOppThis q = true := by
    rw [process_entries_eq]
    refine foldl_inv46 hand (g, init_hand_state) ?_
    intro q hq
    simp [init_hand_state] at hq
  have hfr := foldl_agg_frame hand (g, init_hand_state)
  rw [post_process_fourbetHands, post_process_fourbetOpp, process_entries_eq,
    hfr.2.2.2.2.2.1, hfr.2.2.2.2.2.2]
  rw [process_entries_eq] at h46
  exact Nat.add_le_add (h n) (if_le_if fun hx => ⟨hx.1, hx.2.1, h46 n hx.2.2⟩)

lemma foldl_fourbet_le :
    ∀ (hands : List (List String)) (g : Agg),
      (∀ n, g.fourbetHands n ≤ g.fourbetOpp n) →
      ∀ n, (hands.foldl process_hand g).fourbetHands n ≤
        (hands.foldl process_hand g).fourbetOpp n
  | [], _, h => h
  | hd :: tl, g, h => foldl_fourbet_le tl (process_hand g hd) (process_hand_fourbet_le g hd h)

end PresenceTracking

section SplitLemmas

lemma splitLoop_join : ∀ (l : List String) (acc : List (List String)) (cur : List String),
    (splitLoop acc cur l).flatten = acc.flatten ++ cur ++ l
  | [], acc, cur => by
      unfold splitLoop
      split_ifs with hc
      · simp [List.isEmpty_iff.mp hc]
      · simp
  | e :: rest, acc, cur => by
      unfold splitLoop
      split_ifs with hs hc
      · rw [splitLoop_join rest acc [e]]
        simp [List.isEmpty_iff.mp hc]
      · rw [splitLoop_join rest (acc ++ [cur]) [e]]
        simp
      · rw [splitLoop_join rest acc (cur ++ [e])]
        simp

lemma splitLoop_good : ∀ (l : List String) (acc : List (List String)) (cur : List String),
    (∀ h ∈ acc, GoodHand h) →
    (cur = [] → l = [] ∨ ∃ e t, l = e :: t ∧ is_hand_start e = true) →
    (cur ≠ [] → GoodHand cur) →
    ∀ h ∈ splitLoop acc cur l, GoodHand h
  | [], acc, cur, hacc, _, hcur => by
      unfold splitLoop
      split_ifs with hc
      · exact hacc
      · intro h hh
        rcases List.mem_append.mp hh with h1 | h1
        · exact hacc h h1
        · rw [List.mem_singleton] at h1
          subst h1
          exact hcur fun hemp => hc (by simp [hemp])
  | e :: rest, acc, cur, hacc, hcur0, hcur => by
      unfold splitLoop
      split_ifs with hs hc
      · refine splitLoop_good rest acc [e] hacc ?_ ?_
        · intro hemp
          simp at hemp
        · intro _
          exact ⟨e, [], rfl, hs, by simp⟩
      · refine splitLoop_good rest (acc ++ [cur]) [e] ?_ ?_ ?_
        · intro h hh
          rcases List.mem_append.mp hh with h1 | h1
          · exact hacc h h1
          · rw [List.mem_singleton] at h1
            subst h1
            exact hcur fun hemp => hc (by simp [hemp])
        · intro hemp
          simp at hemp
        · intro _
          exact ⟨e, [], rfl, hs, by simp⟩
      · refine splitLoop_good rest acc (cur ++ [e]) hacc ?_ ?_
        · intro hemp
          simp at hemp
        · intro _
          by_cases hce : cur = []
          · subst hce
            rcases hcur0 rfl with h1 | ⟨e', t', het, hstart⟩
            · simp at h1
            · rw [List.cons_eq_cons] at het
              exact absurd (het.1 ▸ hstart) (by simp [hs])
          · obtain ⟨e0, t0, hcur_eq, hst0, htail⟩ := hcur hce
            refine ⟨e0, t0 ++ [e], by rw [hcur_eq, List.cons_append], hst0, ?_⟩
            intro x hx
            rcases List.mem_append.mp hx with h1 | h1
            · exact htail x h1
            · rw [List.mem_singleton] at h1
              subst h1
              simpa using hs

end SplitLemmas

end RoleLemmas

lemma round_to_zero (d : ℕ) : round_to d 0 = 0 := by
  unfold round_to py_round_int
  norm_num

section Claims

attribute [local semireducible] Rat.add Rat.sub Rat.mul Rat.inv Rat.ofScientific

/-- Claim C1, counterexample: in the hand where A opens to 0.60, B re-raises
to 1.80 and A folds, the computed statistics do not match the claimed values:
A's 3-bet opportunity count is not 1, A's fold-to-3bet count is not 1, and
B's 3-bet opportunity count is not 0. -/
theorem claim_C1_counterexample :
    ¬ ((analyze_hands [scenario_3bet_hand]).threebetOpp "A" = 1 ∧
       (analyze_hands [scenario_3bet_hand]).foldTo3betHands "A" = 1 ∧
       (analyze_hands [scenario_3bet_hand]).threebetOpp "B" = 0) := by
  decide

/-- Claim C1, amended: in that hand A's open-raise count is 1 and B's 3-bet
count is 1, but the 3-bet opportunity is recorded for B (who faced the open),
not for A; A's fold is recorded as a fold to a 4-bet (A, the opener, faced
a 3-bet, which the code counts as A's 4-bet opportunity), with
fold-to-3bet 0. -/
theorem claim_C1_amended :
    (analyze_hands [scenario_3bet_hand]).openRaiseHands "A" = 1 ∧
    (analyze_hands [scenario_3bet_hand]).threebetHands "B" = 1 ∧
    (analyze_hands [scenario_3bet_hand]).threebetOpp "B" = 1 ∧
    (analyze_hands [scenario_3bet_hand]).threebetOpp "A" = 0 ∧
    (analyze_hands [scenario_3bet_hand]).foldTo3betHands "A" = 0 ∧
    (analyze_hands [scenario_3bet_hand]).fourbetOpp "A" = 1 ∧
    (analyze_hands [scenario_3bet_hand]).foldTo4betHands "A" = 1 := by
  decide

/-- Claim C3, code bug: in the hand where A posts a 0.50 blind and has an
uncalled bet of 0.50 returned to `"A @ 1"`, the return is credited to the
dictionary key `A @ 1` (the whole quoted token, id suffix kept), not to the
display name `A`: A's net profit stays -0.50 instead of 0, and a phantom
entry `A @ 1` carries +0.50 but no played hand. -/
theorem claim_C3_code_bug :
    (analyze_hands [uncalled_return_hand]).netProfit "A" = -(1 / 2 : ℚ) ∧
    (analyze_hands [uncalled_return_hand]).netProfit "A @ 1" = (1 / 2 : ℚ) ∧
    (analyze_hands [uncalled_return_hand]).handsPlayed "A @ 1" = 0 := by
  decide

/-- Claim C4, counterexample: in the single hand where A opens, B 3-bets and
A 4-bets, A's cumulative 4-bet count is positive while A's 3-bet opportunity
count is zero, refuting the claimed implication. -/
theorem claim_C4_counterexample :
    ¬ (0 < (analyze_hands [fourbet_hand]).fourbetHands "A" →
        0 < (analyze_hands [fourbet_hand]).threebetOpp "A") := by
  decide

/-- Claim C4, amended: a positive 4-bet count implies a positive 4-bet
(not 3-bet) opportunity count, and in any hand the 4-bettor flag only ever
belongs to the player recorded as the original opener. -/
theorem claim_C4_amended :
    (∀ (hands : List (List String)) (p : String),
        0 < (analyze_hands hands).fourbetHands p →
          0 < (analyze_hands hands).fourbetOpp p) ∧
    (∀ (g : Agg) (hand : List String) (p : String),
        (process_entries g hand).2.fourbetThis p = true →
          (process_entries g hand).2.openRaiser = some p) := by
  constructor
  · intro hands p h
    have hle := foldl_fourbet_le hands init_agg (fun n => by simp [init_agg]) p
    unfold analyze_hands at h ⊢
    omega
  · intro g hand p h
    rw [process_entries_eq] at h ⊢
    refine foldl_inv4o hand (g, init_hand_state) ?_ p h
    intro q hq
    simp [init_hand_state] at hq

/-- Claim C4, witness: the amended theorem applied to the concrete 4-bet
hand. -/
theorem claim_C4_witness :
    0 < (analyze_hands [fourbet_hand]).fourbetOpp "A" ∧
    (process_entries init_agg fourbet_hand).2.openRaiser = some "A" :=
  ⟨claim_C4_amended.1 [fourbet_hand] "A" (by decide),
   claim_C4_amended.2 init_agg fourbet_hand "A" (by decide)⟩

/-- Claim C5, counterexample: in the hand where A sees the flop, shows at
showdown and collects the pot, the won-when-saw-flop counter fires even
though A won at showdown, refuting the claim that a showdown win does not
set the flag. -/
theorem claim_C5_counterexample :
    (analyze_hands [showdown_win_hand]).wtsdHands "A" = 1 ∧
    (analyze_hands [showdown_win_hand]).wsdHands "A" = 1 ∧
    (analyze_hands [showdown_win_hand]).wwsfHands "A" = 1 := by
  decide

/-- Claim C5, amended: the per-hand won-when-saw-flop tally fires exactly
when the player is among the hand's tracked names, collected money, and saw
the flop, regardless of showdown status. -/
theorem claim_C5_amended :
    ∀ (g : Agg) (s : HandState) (hand : List String) (n : String),
      (post_process g s hand).wwsfHands n =
        g.wwsfHands n +
          (if n ∈ all_names s ∧ 0 < s.collected n ∧ s.sawFlopThis n = true then 1 else 0) :=
  fun g s hand n => post_process_wwsfHands g s hand n

/-- Claim C6, counterexample: lines preceding the first hand-start marker are
emitted as an initial hand that does not begin with a start marker. -/
theorem claim_C6_counterexample :
    split_into_hands junk_prefix_input = [["junk"], ["-- starting hand #2 --"]] ∧
    is_hand_start "junk" = false := by
  decide

/-- Claim C6, amended: when the input's first line is a hand-start marker,
the produced hands partition the input exactly: their concatenation is the
input, and every hand is nonempty, begins with a start marker, and contains
no other start-marker line. -/
theorem claim_C6_amended :
    ∀ (l : List String),
      (∀ e, l.head? = some e → is_hand_start e = true) →
        (split_into_hands l).flatten = l ∧ ∀ h ∈ split_into_hands l, GoodHand h := by
  intro l hl
  constructor
  · unfold split_into_hands
    rw [splitLoop_join]
    simp
  · unfold split_into_hands
    refine splitLoop_good l [] [] (by simp) ?_ (fun h => absurd rfl h)
    intro _
    cases l with
    | nil => exact Or.inl rfl
    | cons e t => exact Or.inr ⟨e, t, rfl, hl e rfl⟩

/-- Claim C6, witness: the amended theorem applied to a concrete input that
begins with a start marker. -/
theorem claim_C6_witness :
    (split_into_hands marker_first_input).flatten = marker_first_input :=
  (claim_C6_amended marker_first_input
    (by
      intro e he
      simp only [marker_first_input, List.head?_cons, Option.some.injEq] at he
      subst he
      decide)).1

/-- Claim C7: each role slot (opener, 3-bettor, 4-bettor) holds at most one
player (it is a single optional slot), a slot once assigned is never
reassigned by any later line, and assignments are monotone: the initial
state satisfies the role invariant (no 3-bettor without an opener, no
4-bettor without a 3-bettor) and every processing step preserves it. -/
theorem claim_C7 :
    RoleInv init_hand_state ∧
    (∀ (g : Agg) (s : HandState) (e : String),
        RoleInv s → RoleInv (process_entry g s e).2) ∧
    (∀ (g : Agg) (s : HandState) (e : String) (p : String),
        s.openRaiser = some p → (process_entry g s e).2.openRaiser = some p) ∧
    (∀ (g : Agg) (s : HandState) (e : String) (p : String),
        s.threeBettor = some p → (process_entry g s e).2.threeBettor = some p) ∧
    (∀ (g : Agg) (s : HandState) (e : String) (p : String),
        s.fourBettor = some p → (process_entry g s e).2.fourBettor = some p) := by
  refine ⟨⟨fun _ => rfl, fun _ => rfl⟩, ?_, ?_, ?_, ?_⟩
  · exact fun g s e h => (process_entry_roles g s e).2.2.2 h
  · exact fun g s e p h => (process_entry_roles g s e).1 p h
  · exact fun g s e p h => (process_entry_roles g s e).2.1 p h
  · exact fun g s e p h => (process_entry_roles g s e).2.2.1 p h

/-- Claim C7, witness: after A's open raise, processing B's re-raise leaves
the opener slot assigned to A. -/
theorem claim_C7_witness :
    (process_entry init_agg
        (process_entry init_agg init_hand_state "\"A @ 1\" raises to 0.60").2
        "\"B @ 2\" raises to 1.80").2.openRaiser = some "A" :=
  claim_C7.2.2.1 init_agg
    (process_entry init_agg init_hand_state "\"A @ 1\" raises to 0.60").2
    "\"B @ 2\" raises to 1.80" "A" (by decide)

/-- Claim C8: cumulative hands played dominate each of the cumulative
saw-flop, saw-turn and saw-river counts, for every input and player. -/
theorem claim_C8 :
    ∀ (hands : List (List String)) (n : String),
      (analyze_hands hands).sawFlopHands n ≤ (analyze_hands hands).handsPlayed n ∧
      (analyze_hands hands).sawTurnHands n ≤ (analyze_hands hands).handsPlayed n ∧
      (analyze_hands hands).sawRiverHands n ≤ (analyze_hands hands).handsPlayed n :=
  fun hands n => foldl_saw_le hands init_agg (fun q => by simp [init_agg]) n

/-- Claim C10, counterexample: a player whose only appearance is a pot
collection line still receives an output row (with nonzero collected money)
when that line is processed while the street is still preflop, refuting the
clause that a player appearing only in pot collections is absent. -/
theorem claim_C10_counterexample :
    "C" ∈ output_players (analyze_hands [preflop_collect_hand]) ∧
    (analyze_hands [preflop_collect_hand]).netProfit "C" = (1 / 2 : ℚ) := by
  constructor
  · decide
  · decide

/-- Claim C10, amended: the final output has a row for player n exactly when
some hand contains a line, before that hand's first street marker, that is
neither a street marker nor an uncalled-bet line and whose quoted token
extracts to n; players appearing only after the first street marker, or only
in uncalled-bet lines, get no row. -/
theorem claim_C10 :
    ∀ (hands : List (List String)) (n : String),
      n ∈ output_players (analyze_hands hands) ↔
        ∃ h ∈ hands, appears_preflop n h = true := by
  intro hands n
  unfold output_players analyze_hands
  rw [List.mem_filter]
  have hk := foldl_keys_mem hands init_agg n
  have hp := foldl_posInv hands init_agg (fun q hq => by simp [init_agg] at hq)
  constructor
  · rintro ⟨h1, _⟩
    rcases hk.mp h1 with h | h
    · simp [init_agg] at h
    · exact h
  · intro h
    have hmem := hk.mpr (Or.inr h)
    refine ⟨hmem, ?_⟩
    simpa [bne_iff_ne] using hp n hmem

/-- Claim C2, counterexample: the call line `"A @ 1" calls 5` has a
malformed amount (no decimal point), and the code skips its role and flag
effects too, not only the numeric update: A is dealt in (hands played 1) but
neither the VPIP flag nor the limp counter fires. -/
theorem claim_C2_counterexample :
    (analyze_hands [malformed_call_hand]).handsPlayed "A" = 1 ∧
    (analyze_hands [malformed_call_hand]).vpipHands "A" = 0 ∧
    (analyze_hands [malformed_call_hand]).limpHands "A" = 0 := by
  decide

/-- Claim C2, amended: a call, bet or raise line whose amount text does not
parse is skipped in its entirety: the aggregates are untouched and the hand
state changes only by the showdown check and, preflop, the presence and
opportunity block that runs before amount parsing; no line aborts the hand
or the run (processing is total). -/
theorem claim_C2_amended (g : Agg) (s : HandState) (e name : String)
    (hm1 : is_flop_marker e = false) (hm2 : is_turn_marker e = false)
    (hm3 : is_river_marker e = false) (hu : starts_with_uncalled e = false)
    (hx : extract_player_name e = some name) (hb : is_blind_line e = false)
    (hf : has_folds e = false)
    (hcase :
      (has_calls e = true ∧ parse_amount_after " calls " e = none) ∨
      (has_calls e = false ∧ has_checks e = false ∧ has_bets e = true ∧
        parse_amount_after " bets " e = none) ∨
      (has_calls e = false ∧ has_checks e = false ∧ has_bets e = false ∧
        has_raises_to e = true ∧ parse_amount_after " raises to " e = none)) :
    process_entry g s e =
      (g, if s.street = Street.preflop
          then presence_update { s with showdown := s.showdown || has_shows e } name
          else { s with showdown := s.showdown || has_shows e }) := by
  unfold process_entry process_named
  dsimp only
  rcases hcase with ⟨hc, hp⟩ | ⟨hc, hk, hbets, hp⟩ | ⟨hc, hk, hbets, hr, hp⟩
  · simp only [hm1, hm2, hm3, hu, hx, hb, hf, hc, Bool.false_eq_true, if_false, if_true]
    unfold step_call
    rw [hp]
  · simp only [hm1, hm2, hm3, hu, hx, hb, hf, hc, hk, hbets, Bool.false_eq_true,
      if_false, if_true]
    unfold step_bet
    rw [hp]
  · simp only [hm1, hm2, hm3, hu, hx, hb, hf, hc, hk, hbets, hr, Bool.false_eq_true,
      if_false, if_true]
    unfold step_raise
    rw [hp]

/-- Claim C2, witness: the amended theorem applied to the concrete malformed
call line. -/
theorem claim_C2_witness :
    process_entry init_agg init_hand_state "\"A @ 1\" calls 5" =
      (init_agg,
        if init_hand_state.street = Street.preflop
        then presence_update
          { init_hand_state with
            showdown := init_hand_state.showdown || has_shows "\"A @ 1\" calls 5" } "A"
        else { init_hand_state with
               showdown := init_hand_state.showdown || has_shows "\"A @ 1\" calls 5" }) :=
  claim_C2_amended init_agg init_hand_state "\"A @ 1\" calls 5" "A"
    (by decide) (by decide) (by decide) (by decide) (by decide) (by decide) (by decide)
    (Or.inl ⟨by decide, by decide⟩)

/-- Claim C9: the output-row formulas. Each percentage equals
100 × numerator / denominator rounded to one decimal when the denominator is
positive and 0 when it is 0; the aggression factor is aggressive actions
over calls rounded to two decimals, 0 when calls is 0; aggression frequency
is 100 × aggressive / (aggressive + calls + folds); the big-blind-normalized
win rate is 100 × (net profit / big blind) / hands played. -/
theorem claim_C9 (g : Agg) (bb : ℚ) (n : String) :
    ((build_row g bb n).vpipPct =
        round_to 1 (100 * (g.vpipHands n : ℚ) / (g.handsPlayed n : ℚ)) ∧
      (build_row g bb n).pfrPct =
        round_to 1 (100 * (g.pfrHands n : ℚ) / (g.handsPlayed n : ℚ))) ∧
    (0 < bb → (build_row g bb n).bb100 =
        round_to 1 (100 * (g.netProfit n / bb) / (g.handsPlayed n : ℚ))) ∧
    ((0 < g.sawFlopHands n → (build_row g bb n).wtsdPct =
        round_to 1 (100 * (g.wtsdHands n : ℚ) / (g.sawFlopHands n : ℚ))) ∧
      (g.sawFlopHands n = 0 → (build_row g bb n).wtsdPct = 0)) ∧
    ((0 < g.threebetOpp n →
        (build_row g bb n).threePct =
          round_to 1 (100 * (g.threebetHands n : ℚ) / (g.threebetOpp n : ℚ)) ∧
        (build_row g bb n).foldTo3Pct =
          round_to 1 (100 * (g.foldTo3betHands n : ℚ) / (g.threebetOpp n : ℚ))) ∧
      (g.threebetOpp n = 0 →
        (build_row g bb n).threePct = 0 ∧ (build_row g bb n).foldTo3Pct = 0)) ∧
    ((0 < g.afCalls n → (build_row g bb n).af =
        round_to 2 ((g.afAggr n : ℚ) / (g.afCalls n : ℚ))) ∧
      (g.afCalls n = 0 → (build_row g bb n).af = 0) ∧
      (0 < g.afAggr n + g.afCalls n + g.afFolds n → (build_row g bb n).afqPct =
        round_to 1 (100 * (g.afAggr n : ℚ) /
          ((g.afAggr n + g.afCalls n + g.afFolds n : ℕ) : ℚ)))) := by
  unfold build_row
  dsimp only
  refine ⟨⟨rfl, rfl⟩, fun hbb => ?_, ⟨fun hsf => ?_, fun hsf => ?_⟩,
    ⟨fun h3 => ⟨?_, ?_⟩, fun h3 => ⟨?_, ?_⟩⟩,
    ⟨fun hc => ?_, fun hc => ?_, fun ht => ?_⟩⟩
  · rw [if_pos hbb]
    congr 1
    ring
  · rw [if_pos hsf]
  · rw [if_neg (by omega), round_to_zero]
  · rw [if_pos h3]
  · rw [if_pos h3]
  · rw [if_neg (by omega), round_to_zero]
  · rw [if_neg (by omega), round_to_zero]
  · rw [if_pos hc]
  · rw [if_neg (by omega), round_to_zero]
  · rw [if_pos ht]

/-- Claim C9, witness: the formulas at the aggregates of a concrete
one-hand input. -/
theorem claim_C9_witness :
    (build_row (analyze_hands [limp_hand]) (1 / 5) "A").vpipPct =
        round_to 1 (100 * ((analyze_hands [limp_hand]).vpipHands "A" : ℚ) /
          ((analyze_hands [limp_hand]).handsPlayed "A" : ℚ)) ∧
    (build_row (analyze_hands [limp_hand]) (1 / 5) "A").bb100 =
        round_to 1 (100 * ((analyze_hands [limp_hand]).netProfit "A" / (1 / 5)) /
          ((analyze_hands [limp_hand]).handsPlayed "A" : ℚ)) :=
  ⟨(claim_C9 (analyze_hands [limp_hand]) (1 / 5) "A").1.1,
   (claim_C9 (analyze_hands [limp_hand]) (1 / 5) "A").2.1 (by norm_num)⟩

end Claims

end PokerNow
